import Mathlib

/-!
# Verification of the lazy-beanstalk deployment scripts

Shallow embedding of `src/deployment/modules/ship.py` and
`src/deployment/modules/shield.py`, with proofs of the specified
properties.  Remote AWS resources (environments, load balancers,
listeners, rules) are modelled as explicit state records; API calls
become pure state transformers or trace-emitting functions; Python
exceptions (`DeploymentError`) become `Except String` or explicit
error outcomes.  Strings are handled as character lists so that all
definitions reduce by computation.
-/

set_option maxHeartbeats 1000000

namespace LazyBeanstalk


/-! ## String primitives

Models of the Python string operations used by the scripts
(`in`, `startswith`, `endswith`, `strip`, `split`), over `List Char`
so that everything is structurally recursive and computable. -/

/-- `listStartsWith xs ps`: `xs` begins with `ps`
(Python `xs.startswith(ps)`). -/
def listStartsWith : List Char → List Char → Bool
  | _, [] => true
  | [], _ :: _ => false
  | x :: xs, p :: ps => x == p && listStartsWith xs ps

/-- `listEndsWith xs ss`: `xs` ends with `ss` (Python `xs.endswith(ss)`). -/
def listEndsWith (xs ss : List Char) : Bool :=
  listStartsWith xs.reverse ss.reverse

/-- `listContainsSub xs sub`: `sub` occurs contiguously in `xs`
(Python `sub in xs`). -/
def listContainsSub : List Char → List Char → Bool
  | xs, sub =>
    listStartsWith xs sub ||
      match xs with
      | [] => false
      | _ :: rest => listContainsSub rest sub

/-- Characters before the first occurrence of `sep` (the whole list if
`sep` does not occur): Python `xs.split(sep)[0]` for nonempty `sep`. -/
def takeUntilSub (sep : List Char) : List Char → List Char
  | [] => []
  | x :: xs => if listStartsWith (x :: xs) sep then [] else x :: takeUntilSub sep xs

/-- Split on a single-character separator (Python `xs.split(c)`). -/
def splitOnChar (c : Char) : List Char → List (List Char)
  | [] => [[]]
  | x :: xs =>
    let rest := splitOnChar c xs
    if x == c then [] :: rest
    else match rest with
      | [] => [[x]]
      | r :: rs => (x :: r) :: rs

/-- Whitespace recognised by Python's `str.strip()` (the subset that can
appear in text config lines). -/
def isSpaceChar (c : Char) : Bool :=
  c == ' ' || c == '\t' || c == '\n' || c == '\r'

/-- Python `line.strip()`. -/
def trimChars (xs : List Char) : List Char :=
  ((xs.dropWhile isSpaceChar).reverse.dropWhile isSpaceChar).reverse

/-! ## Bundling filter (`ship.create_app_bundle`, ship.py lines 25-93)

The filter decides, for each file's `/`-normalised relative path,
whether it is included in the bundle, given the exclusion patterns and
negated patterns parsed from `.ebignore`.  `fnmatch` models Python's
`fnmatch.fnmatch` for patterns built from literals, `*` and `?`
(the repository's patterns use no `[...]` classes). -/

/-- `matchTails f cs`: does `f` accept some tail of `cs` (including `cs`
itself)?  Used for `*`, which may consume any run of characters. -/
def matchTails (f : List Char → Bool) : List Char → Bool
  | [] => f []
  | c :: cs => f (c :: cs) || matchTails f cs

/-- Glob match: `*` matches any (possibly empty) run of characters,
`?` matches one character, anything else literally.  Models Python
`fnmatch.fnmatch` (which, unlike `pathlib` matching, lets `*` cross
`/`) for class-free patterns. -/
def fnmatchAux : List Char → List Char → Bool
  | [], cs => cs.isEmpty
  | '*' :: ps, cs => matchTails (fnmatchAux ps) cs
  | '?' :: ps, cs =>
    (match cs with
     | [] => false
     | _ :: cs => fnmatchAux ps cs)
  | p :: ps, cs =>
    (match cs with
     | [] => false
     | c :: cs => p == c && fnmatchAux ps cs)

/-- `fnmatch name pat` (argument order as in Python's
`fnmatch.fnmatch(name, pattern)`). -/
def fnmatch (name pat : List Char) : Bool :=
  fnmatchAux pat name

/-- One pass of the exclusion loop of `create_app_bundle`
(ship.py lines 57-78): first matching pattern wins.  A trailing-slash
pattern is extended with `**`; a separator-free pattern is matched
against each `/`-segment of a path containing `/`; otherwise a direct
glob match; otherwise the `**` prefix/suffix split, where `parts[0]`
and `parts[1]` of Python's `pattern.split('**')` are the text before
the first `**` and, for a pattern starting with `**`, the text between
the leading `**` and the next `**` (or the end). -/
def isExcluded (rel : List Char) : List (List Char) → Bool
  | [] => false
  | p :: ps =>
    let p := if listEndsWith p ['/'] then p ++ ['*', '*'] else p
    if ¬ listContainsSub p ['/'] ∧ listContainsSub rel ['/'] then
      if (splitOnChar '/' rel).any (fun d => fnmatch d p) then true
      else isExcluded rel ps
    else if fnmatch rel p then true
    else if listContainsSub p ['*', '*'] then
      let part0 := takeUntilSub ['*', '*'] p
      let part1 := takeUntilSub ['*', '*'] (p.drop 2)
      if (listStartsWith p ['*', '*'] && listEndsWith rel part1) ||
         (listEndsWith p ['*', '*'] && listStartsWith rel part0) then true
      else isExcluded rel ps
    else isExcluded rel ps

/-- The whole per-file decision of `create_app_bundle`
(ship.py lines 56-88): exclusion loop, then negation rescue for
excluded files, and the unconditional exclusion of `.ebignore`. -/
def shouldInclude (patterns negated : List (List Char)) (rel : List Char) : Bool :=
  let excluded := isExcluded rel patterns
  let excluded :=
    if excluded then ¬ negated.any (fun p => fnmatch rel p) else excluded
  ¬ excluded ∧ rel ≠ ".ebignore".toList

/-- The bundle produced by `create_app_bundle` from a tree of relative
file paths: the files passing `shouldInclude`, in tree order. -/
def create_app_bundle (patterns negated : List (List Char))
    (files : List (List Char)) : List (List Char) :=
  files.filter (shouldInclude patterns negated)

/-- `.ebignore` line parsing (ship.py lines 31-41): lines stripped,
blank and `#` lines skipped, `!` lines collected (without the `!`) as
negated patterns, the rest as exclusion patterns. -/
def parseEbignore (lines : List (List Char)) :
    List (List Char) × List (List Char) :=
  lines.foldl
    (fun acc line =>
      let line := trimChars line
      if line ≠ [] ∧ ¬ listStartsWith line ['#'] then
        if listStartsWith line ['!'] then
          (acc.1, acc.2 ++ [line.drop 1])
        else
          (acc.1 ++ [line], acc.2)
      else acc)
    ([], [])

/-! ## OIDC variable validation (`shield.check_oidc_vars`, shield.py lines 17-69)

`os.environ` is modelled as an association list.  The function is pure:
its inputs are the process environment and the legacy-name mapping, and
it touches no AWS state (no remote calls appear in its type). -/

/-- The process environment (`os.environ`). -/
abbrev PEnv := List (String × String)

/-- `os.environ.get` / `in os.environ`. -/
def envGet (env : PEnv) (k : String) : Option String :=
  (env.find? (fun p => p.1 == k)).map (fun p => p.2)

/-- The `required_vars` table (shield.py lines 28-35): config path and
environment-variable name. -/
def requiredVars : List (String × String) :=
  [("client_id", "LB_OIDC_CLIENT_ID"),
   ("client_secret", "LB_OIDC_CLIENT_SECRET"),
   ("issuer", "LB_OIDC_ISSUER"),
   ("endpoints.authorization", "LB_OIDC_AUTH_ENDPOINT"),
   ("endpoints.token", "LB_OIDC_TOKEN_ENDPOINT"),
   ("endpoints.userinfo", "LB_OIDC_USERINFO_ENDPOINT")]

/-- The legacy remapping loop (shield.py lines 38-42): each old name
present while the new name is absent copies its value onto the new name.
The mapping table itself comes from
`EnvironmentManager.get_old_to_new_env_mapping`, which lives outside the
given sources, so it is a parameter here. -/
def applyLegacyMapping (mapping : List (String × String)) (env : PEnv) : PEnv :=
  mapping.foldl
    (fun e om =>
      if (envGet e om.1).isSome ∧ (envGet e om.2).isNone then
        e ++ [(om.2, (envGet e om.1).getD "")]
      else e)
    env

/-- Result of `check_oidc_vars`: the (possibly remapped) environment,
the reported missing variable names, and the returned boolean. -/
structure OidcCheckResult where
  env : PEnv
  missing : List String
  ok : Bool

/-- `check_oidc_vars` (shield.py lines 17-69): remap legacy names, then
collect every required variable that is absent or empty; returns `True`
iff none is missing. -/
def check_oidc_vars (mapping : List (String × String)) (env : PEnv) :
    OidcCheckResult :=
  let env := applyLegacyMapping mapping env
  let missing :=
    (requiredVars.filter
      (fun pv =>
        match envGet env pv.2 with
        | none => true
        | some v => v == "")).map (fun pv => pv.2)
  { env := env, missing := missing, ok := missing.isEmpty }

/-! ## Version processing wait (`ship.wait_for_version`, ship.py lines 132-151)

The polling loop queries `describe_application_versions` each
iteration; the sequence of responses it would observe is supplied as a
list.  Exhausting the supplied responses with the loop still running is
the `polling` outcome (the real loop has no timeout and would keep
polling). -/

/-- One application version record as returned by the platform. -/
structure VersionInfo where
  status : String
deriving DecidableEq

/-- Outcome of the `wait_for_version` loop. -/
inductive WaitResult where
  | ok
  | error (msg : String)
  | polling
deriving DecidableEq

/-- `wait_for_version` (ship.py lines 132-151) over a response
sequence: an empty `ApplicationVersions` list raises "not found";
`PROCESSED` breaks the loop; `FAILED` raises "processing failed";
anything else sleeps and polls again. -/
def wait_for_version (version : String) :
    List (List VersionInfo) → WaitResult
  | [] => .polling
  | resp :: rest =>
    match resp with
    | [] => .error ("Version " ++ version ++ " not found")
    | v :: _ =>
      if v.status = "PROCESSED" then .ok
      else if v.status = "FAILED" then
        .error ("Version " ++ version ++ " processing failed")
      else wait_for_version version rest

/-! ## ELB state model for `shield.configure_oidc_auth` (shield.py lines 94-330)

Environments, application load balancers, listeners and rules form an
explicit state.  Rule ARNs are modelled as numeric ids allocated from a
counter (`nextRuleId`), since the platform generates a fresh ARN for
each created rule. -/

/-- The `AuthenticateOidcConfig` of an authenticate-oidc action
(shield.py lines 257-271). -/
structure OidcActionConfig where
  issuer : String
  authorizationEndpoint : String
  tokenEndpoint : String
  userInfoEndpoint : String
  clientId : String
  clientSecret : String
  sessionCookieName : String
  sessionTimeout : Nat
  scope : String
  onUnauthenticatedRequest : String
deriving DecidableEq

/-- A listener action. -/
inductive ElbAction where
  | fixedResponse (messageBody statusCode contentType : String)
  | redirect (protocol port statusCode : String)
  | authenticateOidc (cfg : OidcActionConfig) (order : Nat)
  | forward (targetGroupArn : String) (order : Nat)
deriving DecidableEq

/-- A rule condition (`Field` / `Values`). -/
structure RuleCondition where
  field : String
  values : List String
deriving DecidableEq

/-- A listener rule. -/
structure ElbRule where
  arn : Nat
  priority : Nat
  isDefault : Bool
  conditions : List RuleCondition
  actions : List ElbAction
deriving DecidableEq

/-- A listener; `certDomain` is the `DomainName` of the first attached
certificate, if any. -/
structure ElbListener where
  arn : String
  port : Nat
  certDomain : Option String
  defaultActions : List ElbAction
  rules : List ElbRule
deriving DecidableEq

/-- A load balancer with its tags, listeners and target groups. -/
structure LoadBalancer where
  arn : String
  lbType : String
  tags : List (String × String)
  listeners : List ElbListener
  targetGroups : List String
deriving DecidableEq

/-- The remote AWS state visible to shield.py. -/
structure AwsState where
  environments : List String
  loadBalancers : List LoadBalancer
  nextRuleId : Nat
deriving DecidableEq

/-- All listeners of all load balancers. -/
def allListeners (s : AwsState) : List ElbListener :=
  (s.loadBalancers.map (fun lb => lb.listeners)).flatten

/-- The listener a listener-ARN-keyed API call addresses. -/
def listenerByArn (s : AwsState) (arn : String) : Option ElbListener :=
  (allListeners s).find? (fun l => l.arn == arn)

/-- `describe_rules(ListenerArn=arn)`. -/
def describe_rules (s : AwsState) (arn : String) : List ElbRule :=
  match listenerByArn s arn with
  | some l => l.rules
  | none => []

/-- `delete_rule(RuleArn=ruleArn)`: the rule with that ARN disappears. -/
def delete_rule (s : AwsState) (ruleArn : Nat) : AwsState :=
  { s with
    loadBalancers := s.loadBalancers.map (fun lb =>
      { lb with listeners := lb.listeners.map (fun l =>
          { l with rules := l.rules.filter (fun r => ¬ r.arn == ruleArn) }) }) }

/-- `modify_listener(ListenerArn=arn, DefaultActions=acts)`. -/
def modify_listener (s : AwsState) (arn : String) (acts : List ElbAction) :
    AwsState :=
  { s with
    loadBalancers := s.loadBalancers.map (fun lb =>
      { lb with listeners := lb.listeners.map (fun l =>
          if l.arn == arn then { l with defaultActions := acts } else l) }) }

/-- `create_rule(ListenerArn=arn, Priority, Conditions, Actions)`: a
non-default rule with a fresh ARN is appended. -/
def create_rule (s : AwsState) (arn : String) (priority : Nat)
    (conds : List RuleCondition) (acts : List ElbAction) : AwsState :=
  { s with
    loadBalancers := s.loadBalancers.map (fun lb =>
      { lb with listeners := lb.listeners.map (fun l =>
          if l.arn == arn then
            { l with rules :=
                l.rules ++ [⟨s.nextRuleId, priority, false, conds, acts⟩] }
          else l) }),
    nextRuleId := s.nextRuleId + 1 }

/-- Python `str.lower()` for ASCII (kernel-computable, unlike
`String.toLower`). -/
def lowerChar (c : Char) : Char :=
  if 'A' ≤ c ∧ c ≤ 'Z' then Char.ofNat (c.toNat + 32) else c

def lowerString (s : String) : String :=
  String.mk (s.toList.map lowerChar)

/-- The load-balancer loop predicate of `find_listener_arn`
(shield.py lines 129-141): application type, tagged to the
environment. -/
def envLbPred (envName : String) (lb : LoadBalancer) : Bool :=
  lowerString lb.lbType == "application" &&
    lb.tags.any (fun t =>
      t.1 == "elasticbeanstalk:environment-name" && t.2 == envName)

/-- `find_listener_arn` (shield.py lines 109-157): requires the
environment to exist, the first application-type load balancer tagged
`elasticbeanstalk:environment-name = env_name`, and its port-443
listener; each absence raises a `DeploymentError`. -/
def find_listener_arn (envName : String) (s : AwsState) :
    Except String (String × String) :=
  if ¬ s.environments.contains envName then
    .error ("Environment " ++ envName ++ " not found")
  else
    match s.loadBalancers.find? (envLbPred envName) with
    | none => .error ("No load balancer found for environment " ++ envName)
    | some lb =>
      match lb.listeners.find? (fun l => l.port == 443) with
      | none => .error "HTTPS listener not found. Run 'secure' command first."
      | some hl => .ok (hl.arn, lb.arn)

/-- Python `domain.replace("*", project)`. -/
def replaceStar (project domain : String) : String :=
  String.mk (domain.toList.foldr
    (fun c acc => if c == '*' then project.toList ++ acc else c :: acc) [])

/-- `get_domain_from_listener` (shield.py lines 94-106): the domain of
the listener's first certificate, with `*` replaced by the project
name.  A missing listener or certificate is a (Python-level) failure. -/
def get_domain_from_listener (projectName : String) (s : AwsState)
    (listenerArn : String) : Except String String :=
  match listenerByArn s listenerArn with
  | none => .error "listener not found"
  | some l =>
    match l.certDomain with
    | none => .error "no certificate attached to listener"
    | some d => .ok (replaceStar projectName d)

/-- `find_target_group_arn` (shield.py lines 160-173): the first target
group of the load balancer; none raises a `DeploymentError`. -/
def find_target_group_arn (s : AwsState) (lbArn : String) :
    Except String String :=
  match s.loadBalancers.find? (fun lb => lb.arn == lbArn) with
  | none => .error "No target groups found for load balancer"
  | some lb =>
    match lb.targetGroups with
    | [] => .error "No target groups found for load balancer"
    | tg :: _ => .ok tg

/-- Python string truthiness for `Optional[str]`. -/
def truthy (o : Option String) : Bool :=
  match o with
  | none => false
  | some s => ¬ s == ""

/-- Python `a or b` for strings. -/
def orFalsy (a b : String) : String :=
  if a == "" then b else a

/-- `os.environ.get(k, d)`. -/
def envGetD (env : PEnv) (k d : String) : String :=
  (envGet env k).getD d

/-- `get_client_secret` (shield.py lines 176-186): explicit argument,
then `LB_OIDC_CLIENT_SECRET`, then legacy `OIDC_CLIENT_SECRET`, then
the interactive prompt (whose reply is the `prompt` parameter). -/
def get_client_secret (secret : Option String) (env : PEnv)
    (prompt : String) : String :=
  if truthy secret then secret.getD ""
  else if truthy (envGet env "LB_OIDC_CLIENT_SECRET") then
    (envGet env "LB_OIDC_CLIENT_SECRET").getD ""
  else if truthy (envGet env "OIDC_CLIENT_SECRET") then
    (envGet env "OIDC_CLIENT_SECRET").getD ""
  else prompt

/-- The `session` sub-config (non-sensitive, taken from the config). -/
structure SessionConfig where
  cookie_name : String
  timeout : Nat
  scope : String
deriving DecidableEq

/-- The `oidc` section of the configuration file. -/
structure OidcSection where
  client_id : String
  issuer : String
  auth_endpoint : String
  token_endpoint : String
  userinfo_endpoint : String
  session : SessionConfig
deriving DecidableEq

/-- The slice of the configuration dictionary shield.py reads. -/
structure ShieldConfig where
  environment : String
  oidc : OidcSection
deriving DecidableEq

/-- The `oidc_config` resolution of `configure_oidc_auth`
(shield.py lines 201-217): each environment variable overrides the
corresponding config value; plus the constant
`OnUnauthenticatedRequest: authenticate` of the built action. -/
def resolveOidcConfig (cfg : ShieldConfig) (env : PEnv) (secret : String) :
    OidcActionConfig :=
  { issuer := envGetD env "LB_OIDC_ISSUER" cfg.oidc.issuer
    authorizationEndpoint :=
      envGetD env "LB_OIDC_AUTH_ENDPOINT" cfg.oidc.auth_endpoint
    tokenEndpoint := envGetD env "LB_OIDC_TOKEN_ENDPOINT" cfg.oidc.token_endpoint
    userInfoEndpoint :=
      envGetD env "LB_OIDC_USERINFO_ENDPOINT" cfg.oidc.userinfo_endpoint
    clientId := envGetD env "LB_OIDC_CLIENT_ID" cfg.oidc.client_id
    clientSecret := secret
    sessionCookieName := cfg.oidc.session.cookie_name
    sessionTimeout := cfg.oidc.session.timeout
    scope := cfg.oidc.session.scope
    onUnauthenticatedRequest := "authenticate" }

/-- The client-secret resolution of `configure_oidc_auth`
(shield.py lines 203 and 221-223): the argument, else
`LB_OIDC_CLIENT_SECRET`, else `get_client_secret()`. -/
def resolveClientSecret (arg : Option String) (env : PEnv)
    (prompt : String) : String :=
  let s0 :=
    match arg with
    | some a => orFalsy a (envGetD env "LB_OIDC_CLIENT_SECRET" "")
    | none => envGetD env "LB_OIDC_CLIENT_SECRET" ""
  if s0 == "" then get_client_secret none env prompt else s0

/-- The fixed-response 503 default action (shield.py lines 275-287). -/
def fixed503 : List ElbAction :=
  [.fixedResponse "Unauthorized Access" "503" "text/plain"]

/-- The HTTP→HTTPS redirect default action (shield.py lines 314-326). -/
def httpsRedirect : List ElbAction :=
  [.redirect "HTTPS" "443" "HTTP_301"]

/-- The `/*` path condition of the auth rule (shield.py line 294). -/
def pathAllConditions : List RuleCondition :=
  [⟨"path-pattern", ["/*"]⟩]

/-- The action chain of the auth rule (shield.py lines 295-298):
authenticate-oidc at order 1, then forward at order 2. -/
def authRuleActions (cfg : OidcActionConfig) (tg : String) : List ElbAction :=
  [.authenticateOidc cfg 1, .forward tg 2]

/-- The rule-cleanup loop (shield.py lines 243-247): every non-default
rule of the listener is deleted. -/
def cleanupRules (s : AwsState) (listenerArn : String) : AwsState :=
  (describe_rules s listenerArn).foldl
    (fun st r => if ¬ r.isDefault then delete_rule st r.arn else st) s

/-- The port-80 listener lookup (shield.py lines 303-312). -/
def findHttpListener (s : AwsState) (lbArn : String) : Option ElbListener :=
  match s.loadBalancers.find? (fun lb => lb.arn == lbArn) with
  | none => none
  | some lb => lb.listeners.find? (fun l => l.port == 80)

/-- The mutation phase of `configure_oidc_auth`
(shield.py lines 239-328): cleanup, default-503, auth rule, and the
HTTP redirect if a port-80 listener exists (its absence only logged). -/
def applyConfigure (s : AwsState) (listenerArn lbArn : String)
    (oidcCfg : OidcActionConfig) (tg : String) : AwsState :=
  let s1 := cleanupRules s listenerArn
  let s2 := modify_listener s1 listenerArn fixed503
  let s3 := create_rule s2 listenerArn 1 pathAllConditions
    (authRuleActions oidcCfg tg)
  match findHttpListener s3 lbArn with
  | some hl => modify_listener s3 hl.arn httpsRedirect
  | none => s3

/-- `configure_oidc_auth` (shield.py lines 189-330).  All lookups
(and the secret check) precede all mutations, so failures leave the
state untouched; the mutation phase never fails. -/
def configure_oidc_auth (projectName : String) (cfg : ShieldConfig)
    (clientSecretArg : Option String) (env : PEnv) (prompt : String)
    (s : AwsState) : Except String AwsState :=
  let secret := resolveClientSecret clientSecretArg env prompt
  if secret == "" then .error "OIDC client secret is required"
  else
    let oidcCfg := resolveOidcConfig cfg env secret
    match find_listener_arn cfg.environment s with
    | .error e => .error e
    | .ok (listenerArn, lbArn) =>
      if listenerArn == "" then .error "Could not find HTTPS listener"
      else
        match get_domain_from_listener projectName s listenerArn with
        | .error e => .error e
        | .ok _domain =>
          match find_target_group_arn s lbArn with
          | .error e => .error e
          | .ok tg => .ok (applyConfigure s listenerArn lbArn oidcCfg tg)

/-- The per-listener rule-ARN lists, whose flattening is the global
rule-ARN pool. -/
def ruleArnLists (s : AwsState) : List (List Nat) :=
  (allListeners s).map (fun l => l.rules.map (fun r => r.arn))

/-- Well-formed states: rule ARNs are below the allocation counter,
listener ARNs are globally distinct, and rule ARNs are globally
distinct. -/
def WF (s : AwsState) : Prop :=
  (∀ a ∈ (ruleArnLists s).flatten, a < s.nextRuleId) ∧
  ((allListeners s).map (fun l => l.arn)).Nodup ∧
  (ruleArnLists s).flatten.Nodup

instance (s : AwsState) : Decidable (WF s) := by
  unfold WF; infer_instance

/-! ### Listener-map framework

Every mutation of `configure_oidc_auth` rewrites each listener in place
(and possibly bumps the rule-ARN counter), so all of them are instances
of one combinator `mapListeners`, about which the resolver-invariance
and state lemmas are proved once. -/

/-- Apply `g` to every listener, set the rule counter to `n`. -/
def mapListeners (s : AwsState) (g : ElbListener → ElbListener) (n : Nat) :
    AwsState :=
  { s with
    loadBalancers := s.loadBalancers.map (fun lb =>
      { lb with listeners := lb.listeners.map g }),
    nextRuleId := n }

/-- Per-listener effect of `delete_rule`. -/
def delRuleL (d : Nat) (l : ElbListener) : ElbListener :=
  { l with rules := l.rules.filter (fun r => ¬ r.arn == d) }

/-- Per-listener effect of deleting a set of rule ARNs. -/
def dropRules (D : List Nat) (l : ElbListener) : ElbListener :=
  { l with rules := l.rules.filter (fun r => ¬ D.any (fun d => r.arn == d)) }

/-- Per-listener effect of `modify_listener`. -/
def setDefaultsL (a : String) (acts : List ElbAction) (l : ElbListener) :
    ElbListener :=
  if l.arn == a then { l with defaultActions := acts } else l

/-- Per-listener effect of `create_rule`. -/
def addRuleL (a : String) (r : ElbRule) (l : ElbListener) : ElbListener :=
  if l.arn == a then { l with rules := l.rules ++ [r] } else l

/-! ### Normal form of the mutation phase -/

/-- ARNs of the non-default rules of a rule list: exactly the rules the
cleanup loop deletes. -/
def nonDefaultArns (rs : List ElbRule) : List Nat :=
  (rs.filter (fun r => ¬ r.isDefault)).map (fun r => r.arn)

/-- The rule created at priority 1 (shield.py lines 291-299). -/
def authRule (cfg : OidcActionConfig) (tg : String) (rid : Nat) : ElbRule :=
  ⟨rid, 1, false, pathAllConditions, authRuleActions cfg tg⟩

/-- The per-listener effect of the whole mutation phase: delete the
chosen rule ARNs, set the 503 default and append the auth rule on the
HTTPS listener, and set the redirect default on the listener whose ARN
the port-80 lookup returned (if any). -/
def configureStep (larn : String) (D : List Nat) (rid : Nat)
    (cfg : OidcActionConfig) (tg : String) (httpA : Option String)
    (l : ElbListener) : ElbListener :=
  let l1 := addRuleL larn (authRule cfg tg rid)
    (setDefaultsL larn fixed503 (dropRules D l))
  match httpA with
  | some ha => setDefaultsL ha httpsRedirect l1
  | none => l1

/-! ## Environment reconciliation (`ship.preserve_env_state`,
`restore_env_state`, `create_or_update_env`, ship.py lines 153-240)

The helpers `common.find_environment_load_balancer`,
`common.preserve_https_config`, `common.restore_https_config`,
`common.wait_for_env_status` and `common.get_env_settings` live in the
`common` module, which is not among the given sources; they are
modelled from the spec below.  The functions under test emit a trace of
remote calls, so ordering properties (preserve before update, restore
after ready) are statements about the trace. -/

/-- The HTTPS rule configuration a snapshot captures: issuer, the three
endpoints and the client id.  The client secret is never readable back
from the remote rule, so it has no field here. -/
structure HttpsConfig where
  issuer : String
  authEndpoint : String
  tokenEndpoint : String
  userinfoEndpoint : String
  clientId : String
deriving DecidableEq

/-- One environment option setting (`Namespace`/`OptionName`/`Value`). -/
structure OptionSetting where
  ns : String
  optionName : String
  value : String
deriving DecidableEq

/-- A remote call the reconciliation path can issue. -/
inductive ShipCall where
  | findLoadBalancer (envName : String)
  | readHttpsConfig (lbArn : String)
  | updateEnvironment (envName version : String) (settings : List OptionSetting)
  | createEnvironment (appName envName version platform : String)
      (settings : List OptionSetting)
  | waitForStatus (envName status : String)
  | restoreHttpsConfig (lbArn : String) (cfg : HttpsConfig)
      (projectName : String)
deriving DecidableEq

/-- The remote state the reconciliation path observes: whether the
environment exists (describe_environments), its load balancer, and the
HTTPS rule configuration currently on that balancer's listener. -/
structure EnvWorld where
  envExists : Bool
  lbArn : Option String
  httpsConfig : Option HttpsConfig
deriving DecidableEq

/-- Modelled from the spec: `common.find_environment_load_balancer`
(not under src/) resolves the environment's load balancer by tag and
returns it, or "not found" (not an error) when absent. -/
def find_environment_load_balancer (w : EnvWorld) (envName : String) :
    Option String × List ShipCall :=
  (w.lbArn, [.findLoadBalancer envName])

/-- Modelled from the spec: `common.preserve_https_config` (not under
src/) reads the HTTPS listener's authenticate-oidc rule configuration
(issuer, endpoints, client id — never the secret), or none. -/
def preserve_https_config (w : EnvWorld) (lbArn _projectName : String) :
    Option HttpsConfig × List ShipCall :=
  (w.httpsConfig, [.readHttpsConfig lbArn])

/-- The state dictionary built by `preserve_env_state`
(ship.py lines 175-178). -/
structure EnvState where
  https_config : Option HttpsConfig
  load_balancer_arn : String
deriving DecidableEq

/-- `preserve_env_state` (ship.py lines 153-178): resolve the load
balancer (none → nothing to preserve), read the HTTPS config (none →
nothing to preserve), else return both. -/
def preserve_env_state (w : EnvWorld) (envName projectName : String) :
    Option EnvState × List ShipCall :=
  let r1 := find_environment_load_balancer w envName
  match r1.1 with
  | none => (none, r1.2)
  | some lb =>
    let r2 := preserve_https_config w lb projectName
    match r2.1 with
    | none => (none, r1.2 ++ r2.2)
    | some c => (some ⟨some c, lb⟩, r1.2 ++ r2.2)

/-- `restore_env_state` (ship.py lines 180-199): no-op on an empty
state; otherwise re-applies the HTTPS configuration via
`common.restore_https_config`. -/
def restore_env_state (state : Option EnvState) (projectName : String) :
    List ShipCall :=
  match state with
  | none => []
  | some st =>
    match st.https_config with
    | none => []
    | some hc => [.restoreHttpsConfig st.load_balancer_arn hc projectName]

/-- Modelled from the spec: the effect of one remote call on the
observable world; `common.restore_https_config` re-applies the captured
configuration to the balancer's HTTPS listener (full delete-then-
recreate), making it the current configuration. -/
def applyShipCall (w : EnvWorld) (c : ShipCall) : EnvWorld :=
  match c with
  | .restoreHttpsConfig _ hc _ => { w with httpsConfig := some hc }
  | _ => w

def applyShipCalls (w : EnvWorld) (cs : List ShipCall) : EnvWorld :=
  cs.foldl applyShipCall w

/-- The configuration slice `create_or_update_env` reads;
`settings` is the result of `common.get_env_settings` (not under src/),
supplied as data. -/
structure ShipConfig where
  appName : String
  environment : String
  platform : String
  elbType : String
  settings : List OptionSetting
deriving DecidableEq

/-- `create_or_update_env` (ship.py lines 201-240) as the trace of
remote calls it issues: describe (the `envExists` observation), then
either preserve + update, or create with `LoadBalancerType` appended;
then wait for Ready; then restore if a state was preserved. -/
def create_or_update_env (w : EnvWorld) (cfg : ShipConfig)
    (version projectName : String) : List ShipCall :=
  let envName := cfg.environment
  let branch :=
    if w.envExists then
      let r := preserve_env_state w envName projectName
      (r.1, r.2 ++ [.updateEnvironment envName version cfg.settings])
    else
      ((none : Option EnvState),
       [.createEnvironment cfg.appName envName version cfg.platform
          (cfg.settings
            ++ [⟨"aws:elasticbeanstalk:environment", "LoadBalancerType",
                  cfg.elbType⟩])])
  branch.2 ++ [.waitForStatus envName "Ready"]
    ++ (match branch.1 with
        | some st => restore_env_state (some st) projectName
        | none => [])

/-- Restore calls, as opposed to reads and environment operations. -/
def isRestoreCall : ShipCall → Bool
  | .restoreHttpsConfig _ _ _ => true
  | _ => false

/-! ### Claim-level theorems for the auth gate -/

/-- The configuration view of a rule: everything except the
platform-assigned ARN. -/
def ruleView (r : ElbRule) : Nat × Bool × List RuleCondition × List ElbAction :=
  (r.priority, r.isDefault, r.conditions, r.actions)

/-- The configuration view of a listener: default actions plus the
rule views. -/
def listenerConfigView (l : ElbListener) :
    List ElbAction × List (Nat × Bool × List RuleCondition × List ElbAction) :=
  (l.defaultActions, l.rules.map ruleView)

/-! ### Concrete demonstration state -/

/-- A concrete HTTPS listener: certificate with a wildcard domain, one
default rule and one stale non-default rule. -/
def demoListener : ElbListener :=
  { arn := "lis-443", port := 443, certDomain := some "*.example.com",
    defaultActions := [.forward "tg-1" 1],
    rules := [⟨0, 0, true, [], []⟩,
              ⟨1, 5, false, [⟨"path-pattern", ["/old"]⟩],
                [.forward "tg-1" 1]⟩] }

/-- A concrete application load balancer tagged to `demo-env`. -/
def demoLb : LoadBalancer :=
  { arn := "lb-1", lbType := "application",
    tags := [("elasticbeanstalk:environment-name", "demo-env")],
    listeners := [demoListener], targetGroups := ["tg-1"] }

/-- A concrete well-formed remote state. -/
def demoState : AwsState :=
  { environments := ["demo-env"], loadBalancers := [demoLb], nextRuleId := 2 }

def demoSession : SessionConfig := ⟨"AWSELBAuthSessionCookie", 604800, "openid"⟩

def demoOidc : OidcSection :=
  ⟨"cid", "https://issuer.example.com", "https://auth.example.com",
   "https://token.example.com", "https://userinfo.example.com", demoSession⟩

def demoShieldConfig : ShieldConfig := ⟨"demo-env", demoOidc⟩

def demoEnv : PEnv := [("LB_OIDC_CLIENT_SECRET", "s3cret")]

/-- The state after one `configure_oidc_auth` run on `demoState`. -/
def demoResult : AwsState :=
  applyConfigure demoState "lis-443" "lb-1"
    (resolveOidcConfig demoShieldConfig demoEnv
      (resolveClientSecret none demoEnv "")) "tg-1"

/-! ## Theorems -/

/-- C6: with ignore patterns `build/`, `*.log` and negation `!keep.log`,
the tree `[build/out.txt, app.log, keep.log, src/main.py]` bundles to
exactly `[keep.log, src/main.py]`; and for every pattern set and tree,
`.ebignore` itself is never in the bundle. -/
theorem bundle_exclusion_correct :
    (let parsed := parseEbignore
       ["build/".toList, "*.log".toList, "!keep.log".toList]
     create_app_bundle parsed.1 parsed.2
       ["build/out.txt".toList, "app.log".toList, "keep.log".toList,
        "src/main.py".toList]
       = ["keep.log".toList, "src/main.py".toList]) ∧
    (∀ patterns negated files,
      ".ebignore".toList ∉ create_app_bundle patterns negated files) := by
  constructor
  · decide
  · intro patterns negated files hmem
    have h := List.of_mem_filter hmem
    simp only [shouldInclude, decide_eq_true_eq] at h
    exact h.2 rfl

/-- A legacy mapping whose old names are all absent leaves the
environment unchanged. -/
theorem applyLegacyMapping_no_old (mapping : List (String × String))
    (env : PEnv) (hm : ∀ p ∈ mapping, envGet env p.1 = none) :
    applyLegacyMapping mapping env = env := by
  induction mapping with
  | nil => rfl
  | cons p ps ih =>
      have hp : envGet env p.1 = none := hm p (by simp)
      simp only [applyLegacyMapping, List.foldl_cons, hp, Option.isSome_none,
        Bool.false_eq_true, false_and, if_false]
      exact ih fun q hq => hm q (by simp [hq])

/-- C8: with only `LB_OIDC_CLIENT_ID` set (to a nonempty value) and no
legacy-named variable set, `check_oidc_vars` reports exactly the five
other required variables as missing and returns failure. -/
theorem missing_oidc_vars_detected (mapping : List (String × String))
    (v : String) (hv : v ≠ "")
    (hm : ∀ p ∈ mapping, envGet [("LB_OIDC_CLIENT_ID", v)] p.1 = none) :
    (check_oidc_vars mapping [("LB_OIDC_CLIENT_ID", v)]).missing =
      ["LB_OIDC_CLIENT_SECRET", "LB_OIDC_ISSUER", "LB_OIDC_AUTH_ENDPOINT",
       "LB_OIDC_TOKEN_ENDPOINT", "LB_OIDC_USERINFO_ENDPOINT"] ∧
    (check_oidc_vars mapping [("LB_OIDC_CLIENT_ID", v)]).ok = false := by
  have henv := applyLegacyMapping_no_old mapping [("LB_OIDC_CLIENT_ID", v)] hm
  have hvb : (v == "") = false := by
    simp only [beq_eq_false_iff_ne, ne_eq]
    exact hv
  constructor <;>
    simp [check_oidc_vars, henv, requiredVars, envGet, hvb]

/-- Witness for C8 at a concrete environment and the legacy secret
variable name from `get_client_secret`. -/
theorem missing_oidc_vars_detected_witness :
    (check_oidc_vars [("OIDC_CLIENT_SECRET", "LB_OIDC_CLIENT_SECRET")]
        [("LB_OIDC_CLIENT_ID", "my-client")]).missing =
      ["LB_OIDC_CLIENT_SECRET", "LB_OIDC_ISSUER", "LB_OIDC_AUTH_ENDPOINT",
       "LB_OIDC_TOKEN_ENDPOINT", "LB_OIDC_USERINFO_ENDPOINT"] ∧
    (check_oidc_vars [("OIDC_CLIENT_SECRET", "LB_OIDC_CLIENT_SECRET")]
        [("LB_OIDC_CLIENT_ID", "my-client")]).ok = false :=
  missing_oidc_vars_detected
    [("OIDC_CLIENT_SECRET", "LB_OIDC_CLIENT_SECRET")] "my-client"
    (by decide) (by decide)

/-- C10: an empty version list raises the "not found" error, a `FAILED`
status raises the distinct "processing failed" error, and the loop
terminates normally only when some polled response's first version has
status `PROCESSED`. -/
theorem wait_for_version_spec (version : String) :
    (∀ rest, wait_for_version version ([] :: rest)
      = .error ("Version " ++ version ++ " not found")) ∧
    (∀ (v : VersionInfo) vs rest, v.status = "FAILED" →
      wait_for_version version ((v :: vs) :: rest)
        = .error ("Version " ++ version ++ " processing failed")) ∧
    ("Version " ++ version ++ " not found"
      ≠ "Version " ++ version ++ " processing failed") ∧
    (∀ polls, wait_for_version version polls = .ok →
      ∃ (i : Nat) (h : i < polls.length) (v : VersionInfo)
        (vs : List VersionInfo),
        polls.get ⟨i, h⟩ = v :: vs ∧ v.status = "PROCESSED") := by
  refine ⟨fun rest => rfl, fun v vs rest hf => ?_, fun h => ?_, fun polls => ?_⟩
  · have hnp : v.status ≠ "PROCESSED" := by rw [hf]; decide
    simp [wait_for_version, hf, hnp]
  · have hlen := congrArg (fun s => s.data.length) h
    simp only [String.data_append, List.length_append, List.length_cons,
      List.length_nil] at hlen
    omega
  · induction polls with
    | nil => intro h; exact absurd h (by simp [wait_for_version])
    | cons resp rest ih =>
        intro h
        cases resp with
        | nil => exact absurd h (by simp [wait_for_version])
        | cons v vs =>
            by_cases hp : v.status = "PROCESSED"
            · exact ⟨0, by simp, v, vs, rfl, hp⟩
            · by_cases hfail : v.status = "FAILED"
              · rw [wait_for_version] at h
                simp [hp, hfail] at h
              · rw [wait_for_version] at h
                simp only [hp, if_false, hfail] at h
                obtain ⟨i, hi, w, ws, hw, hst⟩ := ih h
                exact ⟨i + 1, by simpa using Nat.succ_lt_succ hi, w, ws, hw, hst⟩

/-- Witness for C10 at concrete poll sequences. -/
theorem wait_for_version_spec_witness :
    wait_for_version "v1" [[]] = .error "Version v1 not found" ∧
    wait_for_version "v1" [[⟨"FAILED"⟩]]
      = .error "Version v1 processing failed" ∧
    (∃ (i : Nat) (h : i < ([[⟨"PROCESSED"⟩]] :
        List (List VersionInfo)).length) (v : VersionInfo)
        (vs : List VersionInfo),
        ([[⟨"PROCESSED"⟩]] : List (List VersionInfo)).get ⟨i, h⟩ = v :: vs ∧
          v.status = "PROCESSED") :=
  ⟨(wait_for_version_spec "v1").1 [],
   (wait_for_version_spec "v1").2.1 ⟨"FAILED"⟩ [] [] rfl,
   (wait_for_version_spec "v1").2.2.2 [[⟨"PROCESSED"⟩]] rfl⟩

theorem delete_rule_eq (s : AwsState) (d : Nat) :
    delete_rule s d = mapListeners s (delRuleL d) s.nextRuleId := rfl

theorem modify_listener_eq (s : AwsState) (a : String) (acts : List ElbAction) :
    modify_listener s a acts = mapListeners s (setDefaultsL a acts) s.nextRuleId :=
  rfl

theorem create_rule_eq (s : AwsState) (a : String) (p : Nat)
    (conds : List RuleCondition) (acts : List ElbAction) :
    create_rule s a p conds acts =
      mapListeners s (addRuleL a ⟨s.nextRuleId, p, false, conds, acts⟩)
        (s.nextRuleId + 1) := rfl

theorem mapListeners_comp (s : AwsState) (g g' : ElbListener → ElbListener)
    (n n' : Nat) :
    mapListeners (mapListeners s g n) g' n' =
      mapListeners s (fun l => g' (g l)) n' := by
  simp [mapListeners, List.map_map, Function.comp_def]

theorem mapListeners_congr (s : AwsState) (g g' : ElbListener → ElbListener)
    (n : Nat) (h : ∀ l, g l = g' l) :
    mapListeners s g n = mapListeners s g' n := by
  have hg : g = g' := funext h
  rw [hg]

theorem mapListeners_id (s : AwsState) : mapListeners s (fun l => l) s.nextRuleId = s := by
  simp [mapListeners]

theorem mapListeners_environments (s : AwsState) (g : ElbListener → ElbListener)
    (n : Nat) : (mapListeners s g n).environments = s.environments := rfl

theorem mapListeners_nextRuleId (s : AwsState) (g : ElbListener → ElbListener)
    (n : Nat) : (mapListeners s g n).nextRuleId = n := rfl

theorem allListeners_mapListeners (s : AwsState) (g : ElbListener → ElbListener)
    (n : Nat) :
    allListeners (mapListeners s g n) = (allListeners s).map g := by
  simp [allListeners, mapListeners, List.map_map, List.map_flatten,
    Function.comp_def]

/-- `find?` respects pointwise-equal predicates. -/
theorem find?_congr_local {α : Type} (p q : α → Bool) (l : List α)
    (h : ∀ x, p x = q x) : l.find? p = l.find? q := by
  induction l with
  | nil => rfl
  | cons x xs ih =>
      simp only [List.find?_cons, h x]
      cases q x <;> simp [ih]

theorem arn_delRuleL (d : Nat) (l : ElbListener) : (delRuleL d l).arn = l.arn := rfl

theorem arn_dropRules (D : List Nat) (l : ElbListener) :
    (dropRules D l).arn = l.arn := rfl

theorem arn_setDefaultsL (a : String) (acts : List ElbAction) (l : ElbListener) :
    (setDefaultsL a acts l).arn = l.arn := by
  unfold setDefaultsL; split <;> rfl

theorem arn_addRuleL (a : String) (r : ElbRule) (l : ElbListener) :
    (addRuleL a r l).arn = l.arn := by
  unfold addRuleL; split <;> rfl

theorem port_delRuleL (d : Nat) (l : ElbListener) : (delRuleL d l).port = l.port := rfl

theorem port_dropRules (D : List Nat) (l : ElbListener) :
    (dropRules D l).port = l.port := rfl

theorem port_setDefaultsL (a : String) (acts : List ElbAction) (l : ElbListener) :
    (setDefaultsL a acts l).port = l.port := by
  unfold setDefaultsL; split <;> rfl

theorem port_addRuleL (a : String) (r : ElbRule) (l : ElbListener) :
    (addRuleL a r l).port = l.port := by
  unfold addRuleL; split <;> rfl

/-- `find?` over the load balancers of a `mapListeners` state, for a
predicate that ignores listeners. -/
theorem find?_lb_mapListeners (s : AwsState) (g : ElbListener → ElbListener)
    (n : Nat) (p : LoadBalancer → Bool)
    (hpres : ∀ lb : LoadBalancer,
      p { lb with listeners := lb.listeners.map g } = p lb) :
    (mapListeners s g n).loadBalancers.find? p =
      (s.loadBalancers.find? p).map
        (fun lb => { lb with listeners := lb.listeners.map g }) := by
  show (s.loadBalancers.map
    (fun lb => { lb with listeners := lb.listeners.map g })).find? p = _
  rw [List.find?_map]
  congr 1
  exact find?_congr_local _ _ _ (fun lb => hpres lb)

/-- Port-keyed listener lookup after a port-preserving rewrite. -/
theorem find?_port_map (ls : List ElbListener) (g : ElbListener → ElbListener)
    (q : Nat) (hport : ∀ l, (g l).port = l.port) :
    (ls.map g).find? (fun l => l.port == q) =
      (ls.find? (fun l => l.port == q)).map g := by
  rw [List.find?_map]
  congr 1
  exact find?_congr_local _ _ _ (fun l => by simp [Function.comp, hport l])

/-- `find_listener_arn` only reads environments, load-balancer metadata
and listener ARNs/ports, so any arn/port-preserving listener rewrite
leaves it unchanged. -/
theorem find_listener_arn_mapListeners (e : String) (s : AwsState)
    (g : ElbListener → ElbListener) (n : Nat)
    (harn : ∀ l, (g l).arn = l.arn) (hport : ∀ l, (g l).port = l.port) :
    find_listener_arn e (mapListeners s g n) = find_listener_arn e s := by
  unfold find_listener_arn
  rw [mapListeners_environments]
  by_cases hc : ¬ s.environments.contains e
  · simp only [if_pos hc]
  · simp only [if_neg hc]
    rw [find?_lb_mapListeners s g n (envLbPred e) (fun lb => rfl)]
    cases s.loadBalancers.find? (envLbPred e) with
    | none => rfl
    | some lb =>
        simp only [Option.map_some]
        show (match (lb.listeners.map g).find? (fun l => l.port == 443) with
          | none => Except.error
              "HTTPS listener not found. Run 'secure' command first."
          | some hl => Except.ok (hl.arn, lb.arn)) = _
        rw [find?_port_map lb.listeners g 443 hport]
        cases lb.listeners.find? (fun l => l.port == 443) with
        | none => rfl
        | some hl => simp [harn hl]

/-- `find_target_group_arn` only reads load-balancer ARNs and target
groups, which no listener rewrite touches. -/
theorem find_target_group_arn_mapListeners (s : AwsState) (a : String)
    (g : ElbListener → ElbListener) (n : Nat) :
    find_target_group_arn (mapListeners s g n) a = find_target_group_arn s a := by
  unfold find_target_group_arn
  rw [find?_lb_mapListeners s g n (fun lb => lb.arn == a) (fun lb => rfl)]
  cases s.loadBalancers.find? (fun lb => lb.arn == a) with
  | none => rfl
  | some lb => rfl

/-- The ARN of the port-80 listener is likewise invariant. -/
theorem findHttpListener_arn_mapListeners (s : AwsState) (a : String)
    (g : ElbListener → ElbListener) (n : Nat)
    (harn : ∀ l, (g l).arn = l.arn) (hport : ∀ l, (g l).port = l.port) :
    (findHttpListener (mapListeners s g n) a).map (fun l => l.arn)
      = (findHttpListener s a).map (fun l => l.arn) := by
  unfold findHttpListener
  rw [find?_lb_mapListeners s g n (fun lb => lb.arn == a) (fun lb => rfl)]
  cases s.loadBalancers.find? (fun lb => lb.arn == a) with
  | none => rfl
  | some lb =>
      simp only [Option.map_some]
      show ((lb.listeners.map g).find? (fun l => l.port == 80)).map
          (fun l => l.arn) = _
      rw [find?_port_map lb.listeners g 80 hport]
      cases lb.listeners.find? (fun l => l.port == 80) with
      | none => rfl
      | some hl => simp [harn hl]

/-- `listenerByArn` after a listener rewrite: the rewritten listener. -/
theorem listenerByArn_mapListeners (s : AwsState) (a : String)
    (g : ElbListener → ElbListener) (n : Nat)
    (harn : ∀ l, (g l).arn = l.arn) :
    listenerByArn (mapListeners s g n) a = (listenerByArn s a).map g := by
  unfold listenerByArn
  rw [allListeners_mapListeners, List.find?_map]
  congr 1
  exact find?_congr_local _ _ _ (fun l => by simp [Function.comp, harn l])

theorem dropRules_nil (l : ElbListener) : dropRules [] l = l := by
  simp [dropRules]

theorem dropRules_delRuleL (d : Nat) (D : List Nat) (l : ElbListener) :
    dropRules D (delRuleL d l) = dropRules (d :: D) l := by
  unfold dropRules delRuleL
  simp only [List.filter_filter]
  congr 1
  apply List.filter_congr
  intro r _
  simp only [List.any_cons]
  rcases Bool.eq_false_or_eq_true (r.arn == d) with h1 | h1 <;>
    rcases Bool.eq_false_or_eq_true (D.any fun x => r.arn == x) with h2 | h2 <;>
      simp [h1, h2]

theorem foldl_delete_eq (rs : List ElbRule) (s : AwsState) :
    rs.foldl (fun st r => if ¬ r.isDefault then delete_rule st r.arn else st) s
      = mapListeners s (dropRules (nonDefaultArns rs)) s.nextRuleId := by
  induction rs generalizing s with
  | nil =>
      simp only [List.foldl_nil]
      rw [show nonDefaultArns [] = [] from rfl,
        mapListeners_congr s _ (fun l => l) s.nextRuleId
          (fun l => dropRules_nil l),
        mapListeners_id]
  | cons r rs ih =>
      simp only [List.foldl_cons]
      by_cases hdef : r.isDefault
      · rw [if_neg (by simp [hdef]), ih]
        have hD : nonDefaultArns (r :: rs) = nonDefaultArns rs := by
          simp [nonDefaultArns, hdef]
        rw [hD]
      · rw [if_pos (by simp [hdef]), delete_rule_eq, ih, mapListeners_nextRuleId,
          mapListeners_comp]
        have hD : nonDefaultArns (r :: rs) = r.arn :: nonDefaultArns rs := by
          simp [nonDefaultArns, hdef]
        rw [hD]
        exact mapListeners_congr s _ _ _
          (fun l => dropRules_delRuleL r.arn (nonDefaultArns rs) l)

theorem cleanupRules_eq (s : AwsState) (a : String) :
    cleanupRules s a
      = mapListeners s (dropRules (nonDefaultArns (describe_rules s a)))
          s.nextRuleId :=
  foldl_delete_eq _ s

theorem rules_setDefaultsL (a : String) (acts : List ElbAction)
    (l : ElbListener) : (setDefaultsL a acts l).rules = l.rules := by
  unfold setDefaultsL; split <;> rfl

theorem rules_dropRules (D : List Nat) (l : ElbListener) :
    (dropRules D l).rules
      = l.rules.filter (fun r => ¬ D.any (fun d => r.arn == d)) := rfl

theorem defaultActions_dropRules (D : List Nat) (l : ElbListener) :
    (dropRules D l).defaultActions = l.defaultActions := rfl

theorem defaultActions_addRuleL (a : String) (r : ElbRule) (l : ElbListener) :
    (addRuleL a r l).defaultActions = l.defaultActions := by
  unfold addRuleL; split <;> rfl

theorem certDomain_dropRules (D : List Nat) (l : ElbListener) :
    (dropRules D l).certDomain = l.certDomain := rfl

theorem certDomain_setDefaultsL (a : String) (acts : List ElbAction)
    (l : ElbListener) : (setDefaultsL a acts l).certDomain = l.certDomain := by
  unfold setDefaultsL; split <;> rfl

theorem certDomain_addRuleL (a : String) (r : ElbRule) (l : ElbListener) :
    (addRuleL a r l).certDomain = l.certDomain := by
  unfold addRuleL; split <;> rfl

theorem arn_configureStep (larn : String) (D : List Nat) (rid : Nat)
    (cfg : OidcActionConfig) (tg : String) (httpA : Option String)
    (l : ElbListener) :
    (configureStep larn D rid cfg tg httpA l).arn = l.arn := by
  unfold configureStep
  cases httpA <;>
    simp [arn_setDefaultsL, arn_addRuleL, arn_dropRules]

theorem port_configureStep (larn : String) (D : List Nat) (rid : Nat)
    (cfg : OidcActionConfig) (tg : String) (httpA : Option String)
    (l : ElbListener) :
    (configureStep larn D rid cfg tg httpA l).port = l.port := by
  unfold configureStep
  cases httpA <;>
    simp [port_setDefaultsL, port_addRuleL, port_dropRules]

/-- `applyConfigure` in normal form: one listener rewrite plus the
counter bump. -/
theorem applyConfigure_eq (s : AwsState) (larn lbarn : String)
    (cfg : OidcActionConfig) (tg : String) :
    applyConfigure s larn lbarn cfg tg =
      mapListeners s
        (configureStep larn (nonDefaultArns (describe_rules s larn))
          s.nextRuleId cfg tg
          ((findHttpListener s lbarn).map (fun l => l.arn)))
        (s.nextRuleId + 1) := by
  unfold applyConfigure
  dsimp only
  rw [cleanupRules_eq, modify_listener_eq, mapListeners_nextRuleId,
    mapListeners_comp, create_rule_eq, mapListeners_nextRuleId,
    mapListeners_comp]
  rw [show (⟨s.nextRuleId, 1, false, pathAllConditions,
    authRuleActions cfg tg⟩ : ElbRule) = authRule cfg tg s.nextRuleId from rfl]
  set D := nonDefaultArns (describe_rules s larn) with hD
  have harn3 : ∀ l : ElbListener,
      ((addRuleL larn (authRule cfg tg s.nextRuleId)
        (setDefaultsL larn fixed503 (dropRules D l)))).arn = l.arn := by
    intro l; rw [arn_addRuleL, arn_setDefaultsL, arn_dropRules]
  have hport3 : ∀ l : ElbListener,
      ((addRuleL larn (authRule cfg tg s.nextRuleId)
        (setDefaultsL larn fixed503 (dropRules D l)))).port = l.port := by
    intro l; rw [port_addRuleL, port_setDefaultsL, port_dropRules]
  have hhttp := findHttpListener_arn_mapListeners s lbarn
    (fun l => addRuleL larn (authRule cfg tg s.nextRuleId)
      (setDefaultsL larn fixed503 (dropRules D l)))
    (s.nextRuleId + 1) harn3 hport3
  cases h0 : findHttpListener s lbarn with
  | none =>
      rw [h0] at hhttp
      have h3 : findHttpListener
          (mapListeners s
            (fun l => addRuleL larn (authRule cfg tg s.nextRuleId)
              (setDefaultsL larn fixed503 (dropRules D l)))
            (s.nextRuleId + 1)) lbarn = none := by
        cases h : findHttpListener
            (mapListeners s
              (fun l => addRuleL larn (authRule cfg tg s.nextRuleId)
                (setDefaultsL larn fixed503 (dropRules D l)))
              (s.nextRuleId + 1)) lbarn with
        | none => rfl
        | some z => rw [h] at hhttp; simp at hhttp
      rw [h3]
      rfl
  | some y =>
      rw [h0] at hhttp
      cases h3 : findHttpListener
          (mapListeners s
            (fun l => addRuleL larn (authRule cfg tg s.nextRuleId)
              (setDefaultsL larn fixed503 (dropRules D l)))
            (s.nextRuleId + 1)) lbarn with
      | none => rw [h3] at hhttp; simp at hhttp
      | some z =>
          rw [h3] at hhttp
          simp only [Option.map_some', Option.some_inj] at hhttp
          dsimp only
          rw [modify_listener_eq, mapListeners_nextRuleId, mapListeners_comp]
          simp only [Option.map_some']
          apply mapListeners_congr
          intro l
          show setDefaultsL z.arn httpsRedirect _ = configureStep larn D
            s.nextRuleId cfg tg (some y.arn) l
          unfold configureStep
          rw [hhttp]

/-! ### Consequences of well-formedness -/

theorem listener_eq_of_fields {x y : ElbListener} (h1 : x.arn = y.arn)
    (h2 : x.port = y.port) (h3 : x.certDomain = y.certDomain)
    (h4 : x.defaultActions = y.defaultActions) (h5 : x.rules = y.rules) :
    x = y := by
  cases x; cases y; simp_all

theorem mem_ruleArnLists (s : AwsState) (l : ElbListener)
    (hl : l ∈ allListeners s) :
    l.rules.map (fun r => r.arn) ∈ ruleArnLists s :=
  List.mem_map_of_mem _ hl

theorem rules_nodup_of_wf {s : AwsState} {l : ElbListener} (hwf : WF s)
    (hl : l ∈ allListeners s) : (l.rules.map (fun r => r.arn)).Nodup :=
  (List.nodup_flatten.mp hwf.2.2).1 _ (mem_ruleArnLists s l hl)

theorem rule_lt_of_wf {s : AwsState} {l : ElbListener} {r : ElbRule}
    (hwf : WF s) (hl : l ∈ allListeners s) (hr : r ∈ l.rules) :
    r.arn < s.nextRuleId :=
  hwf.1 _ (List.mem_flatten.mpr
    ⟨_, mem_ruleArnLists s l hl, List.mem_map_of_mem _ hr⟩)

theorem arn_ne_of_wf {s : AwsState} (hwf : WF s) {x y : ElbListener}
    (hx : x ∈ allListeners s) (hy : y ∈ allListeners s) (hne : x ≠ y) :
    x.arn ≠ y.arn :=
  fun h => hne (List.inj_on_of_nodup_map hwf.2.1 hx hy h)

theorem rules_disjoint_of_wf {s : AwsState} (hwf : WF s) {x y : ElbListener}
    (hx : x ∈ allListeners s) (hy : y ∈ allListeners s) (hne : x ≠ y) :
    ∀ r ∈ x.rules, ∀ q ∈ y.rules, r.arn ≠ q.arn := by
  have hpw : ((allListeners s).map
      (fun l => l.rules.map (fun r => r.arn))).Pairwise List.Disjoint :=
    (List.nodup_flatten.mp hwf.2.2).2
  have hpw2 := List.pairwise_map.mp hpw
  have hsym : Symmetric (fun (a b : ElbListener) =>
      List.Disjoint (a.rules.map (fun r => r.arn))
        (b.rules.map (fun r => r.arn))) :=
    fun a b h => h.symm
  intro r hr q hq heq
  exact List.Pairwise.forall hsym hpw2 hx hy hne
    (List.mem_map_of_mem _ hr) (heq ▸ List.mem_map_of_mem _ hq)

theorem listenerByArn_eq_of_mem {s : AwsState} (hwf : WF s) {l : ElbListener}
    (hl : l ∈ allListeners s) : listenerByArn s l.arn = some l := by
  unfold listenerByArn
  cases hfind : (allListeners s).find? (fun x => x.arn == l.arn) with
  | none =>
      have : ((allListeners s).find? (fun x => x.arn == l.arn)).isSome :=
        List.find?_isSome.mpr ⟨l, hl, by simp⟩
      rw [hfind] at this
      exact absurd this (by simp)
  | some y =>
      have hy : y.arn = l.arn := by
        have h2 := List.find?_some hfind
        simpa using h2
      have hymem := List.mem_of_find?_eq_some hfind
      by_cases hcase : y = l
      · rw [hcase]
      · exact absurd hy (arn_ne_of_wf hwf hymem hl hcase)

theorem findHttpListener_mem {s : AwsState} {a : String} {y : ElbListener}
    (h : findHttpListener s a = some y) :
    y ∈ allListeners s ∧ y.port = 80 := by
  unfold findHttpListener at h
  cases hlb : s.loadBalancers.find? (fun lb => lb.arn == a) with
  | none => rw [hlb] at h; exact absurd h (by simp)
  | some lb =>
      rw [hlb] at h
      dsimp only at h
      have hport : y.port = 80 := by
        have h2 := List.find?_some h
        simpa using h2
      refine ⟨?_, hport⟩
      exact List.mem_flatten.mpr
        ⟨lb.listeners,
         List.mem_map_of_mem _ (List.mem_of_find?_eq_some hlb),
         List.mem_of_find?_eq_some h⟩

/-- Data carried by a successful `find_listener_arn`: the concrete load
balancer and its HTTPS listener. -/
theorem find_listener_arn_ok_inv {e : String} {s : AwsState}
    {larn lbarn : String}
    (h : find_listener_arn e s = .ok (larn, lbarn)) :
    ∃ lb hl, s.loadBalancers.find? (envLbPred e) = some lb ∧
      lb.listeners.find? (fun l => l.port == 443) = some hl ∧
      larn = hl.arn ∧ lbarn = lb.arn ∧
      hl ∈ allListeners s ∧ hl.port = 443 := by
  unfold find_listener_arn at h
  by_cases hc : ¬ s.environments.contains e
  · rw [if_pos hc] at h; exact absurd h (by simp)
  · rw [if_neg hc] at h
    cases hlb : s.loadBalancers.find? (envLbPred e) with
    | none => rw [hlb] at h; exact absurd h (by simp)
    | some lb =>
        rw [hlb] at h
        dsimp only at h
        cases hhl : lb.listeners.find? (fun l => l.port == 443) with
        | none => rw [hhl] at h; exact absurd h (by simp)
        | some hl =>
            rw [hhl] at h
            simp only [Except.ok.injEq, Prod.mk.injEq] at h
            have hport : hl.port = 443 := by
              have h2 := List.find?_some hhl
              simpa using h2
            refine ⟨lb, hl, rfl, hhl, h.1.symm, h.2.symm, ?_, hport⟩
            exact List.mem_flatten.mpr
              ⟨lb.listeners,
               List.mem_map_of_mem _ (List.mem_of_find?_eq_some hlb),
               List.mem_of_find?_eq_some hhl⟩

/-! ### Effect of `configureStep` on the individual listener -/

theorem rules_addRuleL (a : String) (r : ElbRule) (l : ElbListener) :
    (addRuleL a r l).rules
      = if l.arn == a then l.rules ++ [r] else l.rules := by
  unfold addRuleL; split <;> simp_all

theorem defaultActions_setDefaultsL (a : String) (acts : List ElbAction)
    (l : ElbListener) :
    (setDefaultsL a acts l).defaultActions
      = if l.arn == a then acts else l.defaultActions := by
  unfold setDefaultsL; split <;> simp_all

theorem configureStep_rules (larn : String) (D : List Nat) (rid : Nat)
    (cfg : OidcActionConfig) (tg : String) (httpA : Option String)
    (l : ElbListener) :
    (configureStep larn D rid cfg tg httpA l).rules
      = (l.rules.filter (fun r => ¬ D.any (fun d => r.arn == d)))
        ++ (if l.arn == larn then [authRule cfg tg rid] else []) := by
  unfold configureStep
  cases httpA with
  | none =>
      rw [rules_addRuleL, arn_setDefaultsL, arn_dropRules, rules_setDefaultsL,
        rules_dropRules]
      split <;> simp
  | some ha =>
      rw [rules_setDefaultsL, rules_addRuleL, arn_setDefaultsL, arn_dropRules,
        rules_setDefaultsL, rules_dropRules]
      split <;> simp

theorem configureStep_defaultActions (larn : String) (D : List Nat) (rid : Nat)
    (cfg : OidcActionConfig) (tg : String) (httpA : Option String)
    (l : ElbListener) :
    (configureStep larn D rid cfg tg httpA l).defaultActions
      = match httpA with
        | some ha =>
            if l.arn == ha then httpsRedirect
            else if l.arn == larn then fixed503 else l.defaultActions
        | none => if l.arn == larn then fixed503 else l.defaultActions := by
  unfold configureStep
  cases httpA with
  | none =>
      rw [defaultActions_addRuleL, defaultActions_setDefaultsL,
        arn_dropRules, defaultActions_dropRules]
  | some ha =>
      rw [defaultActions_setDefaultsL, arn_addRuleL, arn_setDefaultsL,
        arn_dropRules, defaultActions_addRuleL, defaultActions_setDefaultsL,
        arn_dropRules, defaultActions_dropRules]

theorem certDomain_configureStep (larn : String) (D : List Nat) (rid : Nat)
    (cfg : OidcActionConfig) (tg : String) (httpA : Option String)
    (l : ElbListener) :
    (configureStep larn D rid cfg tg httpA l).certDomain = l.certDomain := by
  unfold configureStep
  cases httpA <;>
    simp [certDomain_setDefaultsL, certDomain_addRuleL, certDomain_dropRules]

/-- With distinct rule ARNs, deleting exactly the non-default ARNs
keeps exactly the default rules. -/
theorem filter_nonDefaultArns (rl : List ElbRule)
    (hnd : (rl.map (fun r => r.arn)).Nodup) :
    rl.filter (fun r => ¬ (nonDefaultArns rl).any (fun d => r.arn == d))
      = rl.filter (fun r => r.isDefault) := by
  apply List.filter_congr
  intro r hr
  have hany : ((nonDefaultArns rl).any fun d => r.arn == d) = !r.isDefault := by
    cases hdef : r.isDefault with
    | false =>
        have hmem : r.arn ∈ nonDefaultArns rl := by
          apply List.mem_map_of_mem
          exact List.mem_filter.mpr ⟨hr, by simp [hdef]⟩
        simp only [Bool.not_false]
        exact List.any_eq_true.mpr ⟨r.arn, hmem, by simp⟩
    | true =>
        simp only [Bool.not_true]
        by_contra hfalse
        have hT : ((nonDefaultArns rl).any fun d => r.arn == d) = true := by
          cases hB : ((nonDefaultArns rl).any fun d => r.arn == d) with
          | false => exact absurd hB hfalse
          | true => rfl
        obtain ⟨d, hd, hbd⟩ := List.any_eq_true.mp hT
        obtain ⟨q, hq, hqd⟩ := List.mem_map.mp hd
        have hqrl : q ∈ rl := (List.mem_filter.mp hq).1
        have hqdef : q.isDefault = false := by
          have := (List.mem_filter.mp hq).2
          simpa using this
        have harneq : q.arn = r.arn := by
          rw [hqd]; exact (beq_iff_eq.mp hbd).symm
        have hqr : q = r := List.inj_on_of_nodup_map hnd hqrl hr harneq
        rw [hqr, hdef] at hqdef
        exact absurd hqdef (by simp)
  simp only [hany]
  cases r.isDefault <;> simp

/-- The HTTPS listener after the mutation phase: 503 default, default
rules kept, the single auth rule appended. -/
theorem configureStep_target (larn : String) (rid : Nat)
    (cfg : OidcActionConfig) (tg : String) (httpA : Option String)
    (l : ElbListener) (harn : l.arn = larn)
    (hnd : (l.rules.map (fun r => r.arn)).Nodup)
    (hha : ∀ ha, httpA = some ha → ¬ ha = larn) :
    configureStep larn (nonDefaultArns l.rules) rid cfg tg httpA l
      = { l with defaultActions := fixed503,
                 rules := l.rules.filter (fun r => r.isDefault)
                   ++ [authRule cfg tg rid] } := by
  apply listener_eq_of_fields
  · rw [arn_configureStep]
  · rw [port_configureStep]
  · rw [certDomain_configureStep]
  · rw [configureStep_defaultActions]
    cases httpA with
    | none => simp [harn]
    | some ha =>
        have hne : ¬ ha = larn := hha ha rfl
        have h1 : (larn == ha) = false :=
          beq_eq_false_iff_ne.mpr (fun hcontra => hne hcontra.symm)
        simp [harn, h1]
  · rw [configureStep_rules, filter_nonDefaultArns l.rules hnd]
    simp [harn]

/-- Listeners other than the HTTPS one (and the redirect target) are
untouched by the mutation phase. -/
theorem configureStep_frame (larn : String) (D : List Nat) (rid : Nat)
    (cfg : OidcActionConfig) (tg : String) (httpA : Option String)
    (x : ElbListener) (harn : ¬ x.arn = larn)
    (hdisj : ∀ r ∈ x.rules, (D.any (fun d => r.arn == d)) = false)
    (hha : ∀ ha, httpA = some ha → ¬ x.arn = ha) :
    configureStep larn D rid cfg tg httpA x = x := by
  have hbe : (x.arn == larn) = false := beq_eq_false_iff_ne.mpr harn
  apply listener_eq_of_fields
  · rw [arn_configureStep]
  · rw [port_configureStep]
  · rw [certDomain_configureStep]
  · rw [configureStep_defaultActions]
    cases httpA with
    | none => simp [hbe]
    | some ha =>
        have h1 : (x.arn == ha) = false := beq_eq_false_iff_ne.mpr (hha ha rfl)
        simp [h1, hbe]
  · rw [configureStep_rules, hbe]
    simp only [Bool.false_eq_true, if_false, List.append_nil]
    apply List.filter_eq_self.mpr
    intro r hr
    simp [hdisj r hr]

/-! ### Preservation of well-formedness -/

theorem wf_applyConfigure (s : AwsState) (larn lbarn : String)
    (cfg : OidcActionConfig) (tg : String) (hwf : WF s) :
    WF (applyConfigure s larn lbarn cfg tg) := by
  rw [applyConfigure_eq]
  set D := nonDefaultArns (describe_rules s larn) with hD
  set httpA := (findHttpListener s lbarn).map (fun l => l.arn) with hH
  set T := configureStep larn D s.nextRuleId cfg tg httpA with hT
  have hA : ∀ x : ElbListener, ((T x).rules.map (fun r => r.arn))
      = ((x.rules.filter (fun r => ¬ D.any (fun d => r.arn == d))).map
          (fun r => r.arn))
        ++ (if x.arn == larn then [s.nextRuleId] else []) := by
    intro x
    rw [hT, configureStep_rules, List.map_append]
    congr 1
    cases hxa : x.arn == larn <;> simp [authRule]
  have hRAL : ruleArnLists (mapListeners s T (s.nextRuleId + 1))
      = (allListeners s).map
          (fun x => ((x.rules.filter (fun r => ¬ D.any (fun d => r.arn == d))).map
              (fun r => r.arn))
            ++ (if x.arn == larn then [s.nextRuleId] else [])) := by
    unfold ruleArnLists
    rw [allListeners_mapListeners, List.map_map]
    exact List.map_congr_left (fun x _ => hA x)
  have hsubarn : ∀ (x : ElbListener) (a : Nat),
      a ∈ ((x.rules.filter (fun r => ¬ D.any (fun d => r.arn == d))).map
        (fun r => r.arn)) →
      a ∈ x.rules.map (fun r => r.arn) := by
    intro x a hax
    obtain ⟨r, hrf, hreq⟩ := List.mem_map.mp hax
    exact hreq ▸ List.mem_map_of_mem _ (List.mem_filter.mp hrf).1
  have hlt : ∀ x ∈ allListeners s, ∀ a : Nat,
      a ∈ x.rules.map (fun r => r.arn) → a < s.nextRuleId := by
    intro x hx a hax
    obtain ⟨r, hr, hreq⟩ := List.mem_map.mp hax
    exact hreq ▸ rule_lt_of_wf hwf hx hr
  have hifmem : ∀ (x : ElbListener) (a : Nat),
      a ∈ (if x.arn == larn then [s.nextRuleId] else []) →
      a = s.nextRuleId ∧ x.arn = larn := by
    intro x a ha
    cases hxa : x.arn == larn with
    | false => rw [hxa] at ha; exact absurd ha (by simp)
    | true =>
        rw [hxa] at ha
        exact ⟨List.mem_singleton.mp ha, beq_iff_eq.mp hxa⟩
  refine ⟨?_, ?_, ?_⟩
  · intro a ha
    rw [hRAL] at ha
    rw [mapListeners_nextRuleId]
    obtain ⟨comp, hcomp, hacomp⟩ := List.mem_flatten.mp ha
    obtain ⟨x, hx, hxeq⟩ := List.mem_map.mp hcomp
    rw [← hxeq] at hacomp
    rcases List.mem_append.mp hacomp with hin | hin
    · have := hlt x hx a (hsubarn x a hin)
      omega
    · have := (hifmem x a hin).1
      omega
  · rw [allListeners_mapListeners, List.map_map]
    have heq : ((fun l => l.arn) ∘ T) = fun (l : ElbListener) => l.arn := by
      funext l
      simp only [Function.comp_apply, hT, arn_configureStep]
    rw [heq]
    exact hwf.2.1
  · rw [hRAL]
    apply List.nodup_flatten.mpr
    constructor
    · intro c hc
      obtain ⟨x, hx, hxeq⟩ := List.mem_map.mp hc
      rw [← hxeq]
      have hnods : (x.rules.map (fun r => r.arn)).Nodup :=
        rules_nodup_of_wf hwf hx
      have hfsub :
          List.Sublist
            ((x.rules.filter (fun r => ¬ D.any (fun d => r.arn == d))).map
              (fun r => r.arn))
            (x.rules.map (fun r => r.arn)) :=
        (List.filter_sublist x.rules).map _
      have h1 := hnods.sublist hfsub
      cases hxa : x.arn == larn with
      | false => simpa using h1
      | true =>
          simp only [if_pos rfl]
          apply h1.append (List.nodup_singleton _)
          intro a ha1 ha2
          have halt := hlt x hx a (hsubarn x a ha1)
          have : a = s.nextRuleId := List.mem_singleton.mp ha2
          omega
    · apply List.pairwise_map.mpr
      have hdisj0 : (allListeners s).Pairwise
          (fun x y => List.Disjoint (x.rules.map (fun r => r.arn))
            (y.rules.map (fun r => r.arn))) :=
        List.pairwise_map.mp (List.nodup_flatten.mp hwf.2.2).2
      have harnne : (allListeners s).Pairwise
          (fun x y => x.arn ≠ y.arn) :=
        List.pairwise_map.mp hwf.2.1
      apply (hdisj0.and harnne).imp_of_mem
      intro x y hx hy hr a hax hay
      rcases List.mem_append.mp hax with hinx | hinx <;>
        rcases List.mem_append.mp hay with hiny | hiny
      · exact hr.1 (hsubarn x a hinx) (hsubarn y a hiny)
      · have h1 := hlt x hx a (hsubarn x a hinx)
        have h2 := (hifmem y a hiny).1
        omega
      · have h1 := hlt y hy a (hsubarn y a hiny)
        have h2 := (hifmem x a hinx).1
        omega
      · have h1 := (hifmem x a hinx).2
        have h2 := (hifmem y a hiny).2
        exact hr.2 (h1.trans h2.symm)

/-! ### Success and inversion of `configure_oidc_auth` -/

theorem configure_eq_ok (pn : String) (cfg : ShieldConfig) (arg : Option String)
    (env : PEnv) (prompt : String) (s : AwsState) (larn lbarn dom tg : String)
    (hsec : ¬ resolveClientSecret arg env prompt = "")
    (hf : find_listener_arn cfg.environment s = .ok (larn, lbarn))
    (hlarn : ¬ larn = "")
    (hd : get_domain_from_listener pn s larn = .ok dom)
    (ht : find_target_group_arn s lbarn = .ok tg) :
    configure_oidc_auth pn cfg arg env prompt s
      = .ok (applyConfigure s larn lbarn
          (resolveOidcConfig cfg env (resolveClientSecret arg env prompt)) tg) := by
  unfold configure_oidc_auth
  have h1 : (resolveClientSecret arg env prompt == "") = false :=
    beq_eq_false_iff_ne.mpr hsec
  have h2 : (larn == "") = false := beq_eq_false_iff_ne.mpr hlarn
  simp [h1, hf, h2, hd, ht]

theorem configure_ok_inv {pn : String} {cfg : ShieldConfig} {arg : Option String}
    {env : PEnv} {prompt : String} {s s' : AwsState}
    (h : configure_oidc_auth pn cfg arg env prompt s = .ok s') :
    ¬ resolveClientSecret arg env prompt = "" ∧
    ∃ larn lbarn dom tg,
      find_listener_arn cfg.environment s = .ok (larn, lbarn) ∧
      ¬ larn = "" ∧
      get_domain_from_listener pn s larn = .ok dom ∧
      find_target_group_arn s lbarn = .ok tg ∧
      s' = applyConfigure s larn lbarn
        (resolveOidcConfig cfg env (resolveClientSecret arg env prompt)) tg := by
  unfold configure_oidc_auth at h
  by_cases h1 : (resolveClientSecret arg env prompt == "") = true
  · simp [h1] at h
  · simp only [Bool.not_eq_true] at h1
    simp only [h1] at h
    refine ⟨by simpa using (beq_eq_false_iff_ne.mp h1), ?_⟩
    cases hf : find_listener_arn cfg.environment s with
    | error e => rw [hf] at h; simp at h
    | ok p =>
        obtain ⟨larn, lbarn⟩ := p
        rw [hf] at h
        by_cases h2 : (larn == "") = true
        · simp [h2] at h
        · simp only [Bool.not_eq_true] at h2
          simp only [h2] at h
          cases hd : get_domain_from_listener pn s larn with
          | error e => rw [hd] at h; simp at h
          | ok dom =>
              rw [hd] at h
              cases ht : find_target_group_arn s lbarn with
              | error e => rw [ht] at h; simp at h
              | ok tg =>
                  rw [ht] at h
                  simp at h
                  exact ⟨larn, lbarn, dom, tg, rfl,
                    by simpa using (beq_eq_false_iff_ne.mp h2), hd, ht, h.symm⟩

/-- C1: for an environment whose balancer carries an OIDC-configured
HTTPS listener, `preserve_env_state` immediately followed by
`restore_env_state` of the returned snapshot reproduces an equivalent
rule configuration — the same issuer, endpoints and client id
(`HttpsConfig` carries exactly those fields; the secret is never read
back and is excluded). -/
theorem preserve_restore_roundtrip (w : EnvWorld) (envName pn lb : String)
    (c : HttpsConfig) (hlb : w.lbArn = some lb)
    (hc : w.httpsConfig = some c) :
    (applyShipCalls w
        (restore_env_state (preserve_env_state w envName pn).1 pn)).httpsConfig
      = w.httpsConfig := by
  simp [preserve_env_state, find_environment_load_balancer,
    preserve_https_config, restore_env_state, applyShipCalls, applyShipCall,
    hlb, hc]

/-- Witness for C1 at a concrete world. -/
theorem preserve_restore_roundtrip_witness :
    (applyShipCalls
        ⟨true, some "lb-1", some ⟨"iss", "auth", "tok", "info", "cid"⟩⟩
        (restore_env_state
          (preserve_env_state
            ⟨true, some "lb-1", some ⟨"iss", "auth", "tok", "info", "cid"⟩⟩
            "demo-env" "proj").1 "proj")).httpsConfig
      = (⟨true, some "lb-1",
          some ⟨"iss", "auth", "tok", "info", "cid"⟩⟩ : EnvWorld).httpsConfig :=
  preserve_restore_roundtrip _ "demo-env" "proj" "lb-1"
    ⟨"iss", "auth", "tok", "info", "cid"⟩ rfl rfl

/-- C2: `create_or_update_env` branches on environment existence; the
create call's settings are the configured settings plus
`LoadBalancerType`, and the update call's settings are exactly the
configured settings (no `LoadBalancerType` added), preceded by the
preserve reads and followed (after the Ready wait) by the restore. -/
theorem create_or_update_branching (w : EnvWorld) (cfg : ShipConfig)
    (version pn : String) :
    (w.envExists = false →
      create_or_update_env w cfg version pn =
        [.createEnvironment cfg.appName cfg.environment version cfg.platform
           (cfg.settings
             ++ [⟨"aws:elasticbeanstalk:environment", "LoadBalancerType",
                   cfg.elbType⟩]),
         .waitForStatus cfg.environment "Ready"]) ∧
    (w.envExists = true →
      create_or_update_env w cfg version pn =
        (preserve_env_state w cfg.environment pn).2
          ++ [.updateEnvironment cfg.environment version cfg.settings]
          ++ [.waitForStatus cfg.environment "Ready"]
          ++ restore_env_state (preserve_env_state w cfg.environment pn).1 pn) := by
  constructor
  · intro hex
    simp [create_or_update_env, hex]
  · intro hex
    unfold create_or_update_env
    simp only [hex, if_pos]
    cases hst : (preserve_env_state w cfg.environment pn).1 with
    | none => simp [restore_env_state]
    | some st => simp

/-- Witness for C2: both branches at concrete worlds. -/
theorem create_or_update_branching_witness :
    (create_or_update_env ⟨false, none, none⟩
        ⟨"app", "demo-env", "plat", "application", []⟩ "v1" "proj" =
      [.createEnvironment "app" "demo-env" "v1" "plat"
         [⟨"aws:elasticbeanstalk:environment", "LoadBalancerType",
            "application"⟩],
       .waitForStatus "demo-env" "Ready"]) ∧
    (create_or_update_env
        ⟨true, some "lb-1", some ⟨"iss", "auth", "tok", "info", "cid"⟩⟩
        ⟨"app", "demo-env", "plat", "application", []⟩ "v1" "proj" =
      (preserve_env_state
          ⟨true, some "lb-1", some ⟨"iss", "auth", "tok", "info", "cid"⟩⟩
          "demo-env" "proj").2
        ++ [.updateEnvironment "demo-env" "v1" []]
        ++ [.waitForStatus "demo-env" "Ready"]
        ++ restore_env_state
            (preserve_env_state
              ⟨true, some "lb-1", some ⟨"iss", "auth", "tok", "info", "cid"⟩⟩
              "demo-env" "proj").1 "proj") :=
  ⟨(create_or_update_branching ⟨false, none, none⟩
      ⟨"app", "demo-env", "plat", "application", []⟩ "v1" "proj").1 rfl,
   (create_or_update_branching
      ⟨true, some "lb-1", some ⟨"iss", "auth", "tok", "info", "cid"⟩⟩
      ⟨"app", "demo-env", "plat", "application", []⟩ "v1" "proj").2 rfl⟩

/-- C3: in every execution the trace splits as a restore-free prefix,
then the wait-for-Ready call, then exactly the restore segment — so a
restore is issued only after the environment reported ready; on the
create path the snapshot is empty, and restore of an empty snapshot
performs no action. -/
theorem restore_only_after_ready (w : EnvWorld) (cfg : ShipConfig)
    (version pn : String) :
    (∃ pre state,
      create_or_update_env w cfg version pn
        = pre ++ [.waitForStatus cfg.environment "Ready"]
          ++ restore_env_state state pn ∧
      (∀ c ∈ pre, isRestoreCall c = false) ∧
      (w.envExists = false → state = none)) ∧
    restore_env_state none pn = [] := by
  refine ⟨?_, rfl⟩
  unfold create_or_update_env
  by_cases hex : w.envExists
  · simp only [hex, if_pos]
    refine ⟨(preserve_env_state w cfg.environment pn).2
      ++ [.updateEnvironment cfg.environment version cfg.settings],
      (preserve_env_state w cfg.environment pn).1, ?_, ?_, ?_⟩
    · cases hst : (preserve_env_state w cfg.environment pn).1 with
      | none => simp [restore_env_state]
      | some st => simp
    · intro c hc
      rcases List.mem_append.mp hc with hc1 | hc1
      · unfold preserve_env_state find_environment_load_balancer
          preserve_https_config at hc1
        cases hlb : w.lbArn with
        | none =>
            rw [hlb] at hc1
            simp at hc1
            rw [hc1]
            rfl
        | some lb =>
            rw [hlb] at hc1
            cases hhc : w.httpsConfig with
            | none =>
                rw [hhc] at hc1
                simp at hc1
                rcases hc1 with h | h <;> (rw [h]; rfl)
            | some c0 =>
                rw [hhc] at hc1
                simp at hc1
                rcases hc1 with h | h <;> (rw [h]; rfl)
      · have : c = .updateEnvironment cfg.environment version cfg.settings :=
          List.mem_singleton.mp hc1
        rw [this]
        rfl
    · intro hfalse
      exact absurd hfalse (by simp [hex])
  · simp only [hex, if_neg, Bool.false_eq_true]
    refine ⟨[.createEnvironment cfg.appName cfg.environment version
        cfg.platform
        (cfg.settings
          ++ [⟨"aws:elasticbeanstalk:environment", "LoadBalancerType",
                cfg.elbType⟩])], none, by simp [restore_env_state], ?_, fun _ => rfl⟩
    intro c hc
    have : c = .createEnvironment cfg.appName cfg.environment version
        cfg.platform
        (cfg.settings
          ++ [⟨"aws:elasticbeanstalk:environment", "LoadBalancerType",
                cfg.elbType⟩]) := List.mem_singleton.mp hc
    rw [this]
    rfl

/-- Witness for C3 at a concrete world (update path with a snapshot). -/
theorem restore_only_after_ready_witness :
    (∃ pre state,
      create_or_update_env
          ⟨true, some "lb-1", some ⟨"iss", "auth", "tok", "info", "cid"⟩⟩
          ⟨"app", "demo-env", "plat", "application", []⟩ "v1" "proj"
        = pre ++ [.waitForStatus "demo-env" "Ready"]
          ++ restore_env_state state "proj" ∧
      (∀ c ∈ pre, isRestoreCall c = false) ∧
      ((⟨true, some "lb-1",
          some ⟨"iss", "auth", "tok", "info", "cid"⟩⟩ : EnvWorld).envExists
          = false → state = none)) ∧
    restore_env_state none "proj" = [] :=
  restore_only_after_ready
    ⟨true, some "lb-1", some ⟨"iss", "auth", "tok", "info", "cid"⟩⟩
    ⟨"app", "demo-env", "plat", "application", []⟩ "v1" "proj"

/-! ### Post-state of `configure_oidc_auth` -/

theorem get_domain_ok_inv {pn : String} {s : AwsState} {larn dom : String}
    (h : get_domain_from_listener pn s larn = .ok dom) :
    ∃ l d, listenerByArn s larn = some l ∧ l.certDomain = some d ∧
      dom = replaceStar pn d := by
  unfold get_domain_from_listener at h
  cases hby : listenerByArn s larn with
  | none => rw [hby] at h; simp at h
  | some l =>
      rw [hby] at h
      dsimp only at h
      cases hcd : l.certDomain with
      | none => rw [hcd] at h; simp at h
      | some d =>
          rw [hcd] at h
          simp at h
          exact ⟨l, d, rfl, hcd, h.symm⟩

theorem get_domain_eq_ok {pn : String} {s : AwsState} {larn : String}
    {l : ElbListener} {d : String} (hby : listenerByArn s larn = some l)
    (hcd : l.certDomain = some d) :
    get_domain_from_listener pn s larn = .ok (replaceStar pn d) := by
  unfold get_domain_from_listener
  rw [hby]
  dsimp only
  rw [hcd]

/-- Shared characterisation of a successful `configure_oidc_auth` run
on a well-formed state: the resolvers' results, preservation of
well-formedness and of the resolvers on the new state, and the exact
new HTTPS listener. -/
theorem configure_post_core {pn : String} {cfg : ShieldConfig}
    {arg : Option String} {env : PEnv} {prompt : String} {s s' : AwsState}
    (hwf : WF s) (h : configure_oidc_auth pn cfg arg env prompt s = .ok s') :
    ∃ larn lbarn tg l,
      find_listener_arn cfg.environment s = .ok (larn, lbarn) ∧
      ¬ larn = "" ∧
      find_target_group_arn s lbarn = .ok tg ∧
      listenerByArn s larn = some l ∧
      s'.nextRuleId = s.nextRuleId + 1 ∧
      find_listener_arn cfg.environment s' = .ok (larn, lbarn) ∧
      find_target_group_arn s' lbarn = .ok tg ∧
      WF s' ∧
      listenerByArn s' larn = some
        { l with defaultActions := fixed503,
                 rules := l.rules.filter (fun r => r.isDefault)
                   ++ [authRule (resolveOidcConfig cfg env
                        (resolveClientSecret arg env prompt)) tg
                        s.nextRuleId] } ∧
      ¬ resolveClientSecret arg env prompt = "" ∧
      ∃ d, l.certDomain = some d := by
  obtain ⟨hsec, larn, lbarn, dom, tg, hf, hlarn, hd, ht, hs'⟩ :=
    configure_ok_inv h
  obtain ⟨lb, hl, hflb, hf443, hlarneq, hlbarneq, hmem, hport⟩ :=
    find_listener_arn_ok_inv hf
  have hby : listenerByArn s larn = some hl := by
    rw [hlarneq]; exact listenerByArn_eq_of_mem hwf hmem
  have hnd : (hl.rules.map (fun r => r.arn)).Nodup :=
    rules_nodup_of_wf hwf hmem
  have hdesc : describe_rules s larn = hl.rules := by
    unfold describe_rules; rw [hby]
  have hha : ∀ ha, (findHttpListener s lbarn).map (fun l => l.arn) = some ha →
      ¬ ha = larn := by
    intro ha hmap
    cases hhttp : findHttpListener s lbarn with
    | none => rw [hhttp] at hmap; simp at hmap
    | some y =>
        rw [hhttp] at hmap
        simp only [Option.map_some', Option.some_inj] at hmap
        obtain ⟨hymem, hyport⟩ := findHttpListener_mem hhttp
        have hne : y ≠ hl := by
          intro hcontra
          rw [hcontra, hport] at hyport
          exact absurd hyport (by decide)
        have harn := arn_ne_of_wf hwf hymem hmem hne
        intro hc
        apply harn
        rw [hmap, hc, hlarneq]
  have harnp : ∀ x : ElbListener,
      (configureStep larn (nonDefaultArns (describe_rules s larn))
        s.nextRuleId (resolveOidcConfig cfg env
          (resolveClientSecret arg env prompt)) tg
        ((findHttpListener s lbarn).map (fun l => l.arn)) x).arn = x.arn := by
    intro x
    exact arn_configureStep larn (nonDefaultArns (describe_rules s larn))
      s.nextRuleId (resolveOidcConfig cfg env
        (resolveClientSecret arg env prompt)) tg
      ((findHttpListener s lbarn).map (fun l => l.arn)) x
  have hportp : ∀ x : ElbListener,
      (configureStep larn (nonDefaultArns (describe_rules s larn))
        s.nextRuleId (resolveOidcConfig cfg env
          (resolveClientSecret arg env prompt)) tg
        ((findHttpListener s lbarn).map (fun l => l.arn)) x).port = x.port := by
    intro x
    exact port_configureStep larn (nonDefaultArns (describe_rules s larn))
      s.nextRuleId (resolveOidcConfig cfg env
        (resolveClientSecret arg env prompt)) tg
      ((findHttpListener s lbarn).map (fun l => l.arn)) x
  obtain ⟨l0, d, hby0, hcd, hdom⟩ := get_domain_ok_inv hd
  have hl0 : l0 = hl := by
    rw [hby] at hby0
    exact (Option.some_inj.mp hby0).symm
  refine ⟨larn, lbarn, tg, hl, hf, hlarn, ht, hby, ?_, ?_, ?_, ?_, ?_, hsec,
    d, by rw [← hl0]; exact hcd⟩
  · rw [hs', applyConfigure_eq, mapListeners_nextRuleId]
  · rw [hs', applyConfigure_eq, find_listener_arn_mapListeners _ _ _ _
      harnp hportp]
    exact hf
  · rw [hs', applyConfigure_eq, find_target_group_arn_mapListeners]
    exact ht
  · rw [hs']
    exact wf_applyConfigure s larn lbarn _ tg hwf
  · rw [hs', applyConfigure_eq, listenerByArn_mapListeners _ _ _ _ harnp, hby]
    simp only [Option.map_some', Option.some_inj]
    rw [show nonDefaultArns (describe_rules s larn)
      = nonDefaultArns hl.rules from by rw [hdesc]]
    exact configureStep_target larn s.nextRuleId _ tg _ hl hlarneq.symm hnd hha

theorem filter_isDefault_append_authRule (rl : List ElbRule)
    (c : OidcActionConfig) (tg : String) (n : Nat) :
    ((rl.filter (fun r => r.isDefault)) ++ [authRule c tg n]).filter
        (fun r => r.isDefault)
      = rl.filter (fun r => r.isDefault) := by
  rw [List.filter_append]
  have h2 : ([authRule c tg n] : List ElbRule).filter
      (fun r => r.isDefault) = [] := by
    simp [authRule]
  rw [h2, List.append_nil, List.filter_filter]
  apply List.filter_congr
  intro r _
  cases r.isDefault <;> simp

/-- C5: after a successful `configure_oidc_auth`, the HTTPS listener's
default action is the fixed 503 "Unauthorized" response, every
pre-existing non-default rule has been deleted, and exactly one
non-default rule remains: priority 1, matching `/*`
(`pathAllConditions`), with authenticate-oidc at order 1 followed by
forward-to-target-group at order 2 (`authRuleActions`). -/
theorem configure_oidc_auth_post (pn : String) (cfg : ShieldConfig)
    (arg : Option String) (env : PEnv) (prompt : String) (s s' : AwsState)
    (hwf : WF s) (h : configure_oidc_auth pn cfg arg env prompt s = .ok s') :
    ∃ larn lbarn tg l,
      find_listener_arn cfg.environment s = .ok (larn, lbarn) ∧
      find_target_group_arn s lbarn = .ok tg ∧
      listenerByArn s larn = some l ∧
      ∃ l', listenerByArn s' larn = some l' ∧
        l'.defaultActions = fixed503 ∧
        l'.rules = l.rules.filter (fun r => r.isDefault)
          ++ [authRule (resolveOidcConfig cfg env
               (resolveClientSecret arg env prompt)) tg s.nextRuleId] ∧
        l'.rules.filter (fun r => ¬ r.isDefault)
          = [authRule (resolveOidcConfig cfg env
              (resolveClientSecret arg env prompt)) tg s.nextRuleId] := by
  obtain ⟨larn, lbarn, tg, l, hf, hlarn, ht, hby, hnext, hf1, ht1, hwf1,
    hby1, hsec, d, hcd⟩ := configure_post_core hwf h
  refine ⟨larn, lbarn, tg, l, hf, ht, hby, _, hby1, rfl, rfl, ?_⟩
  show (l.rules.filter (fun r => r.isDefault)
      ++ [authRule _ tg s.nextRuleId]).filter (fun r => ¬ r.isDefault) = _
  rw [List.filter_append]
  have h1 : (l.rules.filter (fun r => r.isDefault)).filter
      (fun r => ¬ r.isDefault) = [] := by
    rw [List.filter_filter]
    apply List.filter_eq_nil_iff.mpr
    intro r _
    cases r.isDefault <;> simp
  have h2 : ([authRule (resolveOidcConfig cfg env
      (resolveClientSecret arg env prompt)) tg s.nextRuleId] :
        List ElbRule).filter (fun r => ¬ r.isDefault)
      = [authRule (resolveOidcConfig cfg env
          (resolveClientSecret arg env prompt)) tg s.nextRuleId] := by
    simp [authRule]
  rw [h1, h2, List.nil_append]

/-- C4: applying `configure_oidc_auth` twice in succession with the
same configuration, environment and secret succeeds, and the second
application leaves the HTTPS listener's configuration — default 503
action and the rule set up to platform-assigned rule ARNs — exactly as
after the first application. -/
theorem configure_oidc_auth_idempotent (pn : String) (cfg : ShieldConfig)
    (arg : Option String) (env : PEnv) (prompt : String) (s s1 : AwsState)
    (hwf : WF s)
    (h1 : configure_oidc_auth pn cfg arg env prompt s = .ok s1) :
    ∃ s2, configure_oidc_auth pn cfg arg env prompt s1 = .ok s2 ∧
      ∃ larn lbarn, find_listener_arn cfg.environment s = .ok (larn, lbarn) ∧
        (listenerByArn s2 larn).map listenerConfigView
          = (listenerByArn s1 larn).map listenerConfigView := by
  obtain ⟨larn, lbarn, tg, l, hf, hlarn, ht, hby, hnext, hf1, ht1, hwf1,
    hby1, hsec, d, hcd⟩ := configure_post_core hwf h1
  have hd1 : get_domain_from_listener pn s1 larn = .ok (replaceStar pn d) :=
    get_domain_eq_ok hby1 hcd
  have h2 : configure_oidc_auth pn cfg arg env prompt s1
      = .ok (applyConfigure s1 larn lbarn
          (resolveOidcConfig cfg env (resolveClientSecret arg env prompt)) tg) :=
    configure_eq_ok pn cfg arg env prompt s1 larn lbarn _ tg hsec hf1 hlarn
      hd1 ht1
  obtain ⟨larn2, lbarn2, tg2, l2, hf2, hlarn2, ht2, hby2, hnext2, hf12, ht12,
    hwf12, hby22, hsec2, d2, hcd2⟩ := configure_post_core hwf1 h2
  have hpair := hf1.symm.trans hf2
  simp only [Except.ok.injEq, Prod.mk.injEq] at hpair
  obtain ⟨he1, he2⟩ := hpair
  subst he1
  subst he2
  have htg : tg2 = tg := by
    have := ht1.symm.trans ht2
    simp only [Except.ok.injEq] at this
    exact this.symm
  subst htg
  have hl2 : l2 = { l with
                    defaultActions := fixed503,
                    rules := l.rules.filter (fun r => r.isDefault)
                      ++ [authRule (resolveOidcConfig cfg env
                           (resolveClientSecret arg env prompt)) tg2
                           s.nextRuleId] } := by
    have := hby1.symm.trans hby2
    simp only [Option.some_inj] at this
    exact this.symm
  refine ⟨_, h2, larn, lbarn, hf, ?_⟩
  rw [hby22, hby1]
  simp only [Option.map_some', Option.some_inj]
  unfold listenerConfigView
  rw [hl2]
  simp only [Prod.mk.injEq]
  refine ⟨trivial, ?_⟩
  show ((((l.rules.filter (fun r => r.isDefault))
      ++ [authRule (resolveOidcConfig cfg env
           (resolveClientSecret arg env prompt)) tg2 s.nextRuleId]).filter
        (fun r => r.isDefault))
      ++ [authRule (resolveOidcConfig cfg env
           (resolveClientSecret arg env prompt)) tg2 s1.nextRuleId]).map
        ruleView
    = ((l.rules.filter (fun r => r.isDefault))
      ++ [authRule (resolveOidcConfig cfg env
           (resolveClientSecret arg env prompt)) tg2 s.nextRuleId]).map
        ruleView
  rw [filter_isDefault_append_authRule, List.map_append, List.map_append]
  rfl

/-- C9: when the load balancer has no port-80 listener,
`configure_oidc_auth` still succeeds, and the resulting state rewrites
only the HTTPS listener (every other listener is unchanged); the
missing HTTP listener is only logged. -/
theorem configure_oidc_auth_http_tolerant (pn : String) (cfg : ShieldConfig)
    (arg : Option String) (env : PEnv) (prompt : String) (s : AwsState)
    (larn lbarn dom tg : String)
    (hwf : WF s)
    (hsec : ¬ resolveClientSecret arg env prompt = "")
    (hf : find_listener_arn cfg.environment s = .ok (larn, lbarn))
    (hlarn : ¬ larn = "")
    (hd : get_domain_from_listener pn s larn = .ok dom)
    (ht : find_target_group_arn s lbarn = .ok tg)
    (hnohttp : findHttpListener s lbarn = none) :
    ∃ s', configure_oidc_auth pn cfg arg env prompt s = .ok s' ∧
      s'.environments = s.environments ∧
      allListeners s' = (allListeners s).map (fun x =>
        if x.arn == larn then
          { x with defaultActions := fixed503,
                   rules := x.rules.filter (fun r => r.isDefault)
                     ++ [authRule (resolveOidcConfig cfg env
                          (resolveClientSecret arg env prompt)) tg
                          s.nextRuleId] }
        else x) := by
  have hok := configure_eq_ok pn cfg arg env prompt s larn lbarn dom tg hsec
    hf hlarn hd ht
  refine ⟨_, hok, ?_, ?_⟩
  · rw [applyConfigure_eq]
    rfl
  · rw [applyConfigure_eq, allListeners_mapListeners, hnohttp]
    obtain ⟨lb, hl, hflb, hf443, hlarneq, hlbarneq, hmem, hport⟩ :=
      find_listener_arn_ok_inv hf
    have hby : listenerByArn s larn = some hl := by
      rw [hlarneq]; exact listenerByArn_eq_of_mem hwf hmem
    have hdesc : describe_rules s larn = hl.rules := by
      unfold describe_rules; rw [hby]
    apply List.map_congr_left
    intro x hx
    by_cases hxl : x.arn = larn
    · have hxeq : x = hl := by
        apply List.inj_on_of_nodup_map hwf.2.1 hx hmem
        rw [hxl, hlarneq]
      subst hxeq
      rw [hdesc]
      rw [show (Option.map (fun l : ElbListener => l.arn)
        (none : Option ElbListener)) = none from rfl]
      rw [configureStep_target larn s.nextRuleId _ tg none x hxl
        (rules_nodup_of_wf hwf hmem) (fun ha hcontra => by simp at hcontra)]
      have hxb : (x.arn == larn) = true := by
        rw [hxl]; simp
      rw [hxb]
      simp
    · have hx_ne_hl : x ≠ hl := by
        intro hc
        apply hxl
        rw [hc, hlarneq]
      have hdisj : ∀ r ∈ x.rules,
          ((nonDefaultArns (describe_rules s larn)).any
            (fun d => r.arn == d)) = false := by
        intro r hr
        rw [hdesc]
        cases hB : (nonDefaultArns hl.rules).any (fun d => r.arn == d) with
        | false => rfl
        | true =>
            exfalso
            obtain ⟨dd, hdd, hbd⟩ := List.any_eq_true.mp hB
            obtain ⟨q, hq, hqd⟩ := List.mem_map.mp hdd
            have hq2 : q ∈ hl.rules := (List.mem_filter.mp hq).1
            have hner := rules_disjoint_of_wf hwf hx hmem hx_ne_hl r hr q hq2
            rw [← hqd] at hbd
            exact absurd (beq_iff_eq.mp hbd) hner
      rw [show (Option.map (fun l : ElbListener => l.arn)
        (none : Option ElbListener)) = none from rfl]
      rw [configureStep_frame larn _ s.nextRuleId _ tg none x hxl hdisj
        (fun ha hcontra => by simp at hcontra)]
      rw [beq_eq_false_iff_ne.mpr hxl]
      simp

/-- C7 counterexample: for an absent environment the resolver
`find_listener_arn` raises a `DeploymentError` ("Environment ... not
found") instead of returning a not-found outcome. -/
theorem find_listener_arn_not_found_is_error :
    find_listener_arn "env-a" ⟨[], [], 0⟩
      = .error "Environment env-a not found" := rfl

/-- C7 amended: shield's `find_listener_arn` fails fast with a
`DeploymentError` in each absent case — the environment does not
exist, no application load balancer is tagged to it, or the balancer
has no port-443 listener — while the deploy-path resolver used by
`preserve_env_state` reports a missing load balancer as a none outcome
(not an error). -/
theorem resolver_not_found_amended :
    (∀ (e : String) (s : AwsState), ¬ s.environments.contains e = true →
      find_listener_arn e s
        = .error ("Environment " ++ e ++ " not found")) ∧
    (∀ (e : String) (s : AwsState), s.environments.contains e = true →
      s.loadBalancers.find? (envLbPred e) = none →
      find_listener_arn e s
        = .error ("No load balancer found for environment " ++ e)) ∧
    (∀ (e : String) (s : AwsState) (lb : LoadBalancer),
      s.environments.contains e = true →
      s.loadBalancers.find? (envLbPred e) = some lb →
      lb.listeners.find? (fun l => l.port == 443) = none →
      find_listener_arn e s
        = .error "HTTPS listener not found. Run 'secure' command first.") ∧
    (∀ (w : EnvWorld) (n p : String), w.lbArn = none →
      (preserve_env_state w n p).1 = none) := by
  refine ⟨?_, ?_, ?_, ?_⟩
  · intro e s hc
    unfold find_listener_arn
    rw [if_pos hc]
  · intro e s hc hlb
    unfold find_listener_arn
    rw [if_neg (not_not_intro hc), hlb]
  · intro e s lb hc hlb h443
    unfold find_listener_arn
    rw [if_neg (not_not_intro hc), hlb]
    dsimp only
    rw [h443]
  · intro w n p hlb
    simp [preserve_env_state, find_environment_load_balancer, hlb]

/-- Witness for the amended C7 at concrete inputs: an absent
environment, an environment with no tagged balancer, a balancer with no
port-443 listener, and a world with no balancer to preserve. -/
theorem resolver_not_found_amended_witness :
    (find_listener_arn "demo-env" ⟨["other"], [], 0⟩
      = .error "Environment demo-env not found") ∧
    (find_listener_arn "demo-env" ⟨["demo-env"], [], 0⟩
      = .error "No load balancer found for environment demo-env") ∧
    (find_listener_arn "demo-env"
        ⟨["demo-env"],
         [⟨"lb-2", "application",
           [("elasticbeanstalk:environment-name", "demo-env")], [], []⟩], 0⟩
      = .error "HTTPS listener not found. Run 'secure' command first.") ∧
    (preserve_env_state ⟨true, none, none⟩ "demo-env" "proj").1 = none :=
  ⟨resolver_not_found_amended.1 "demo-env" ⟨["other"], [], 0⟩ (by decide),
   resolver_not_found_amended.2.1 "demo-env" ⟨["demo-env"], [], 0⟩
     (by decide) rfl,
   resolver_not_found_amended.2.2.1 "demo-env"
     ⟨["demo-env"],
      [⟨"lb-2", "application",
        [("elasticbeanstalk:environment-name", "demo-env")], [], []⟩], 0⟩
     ⟨"lb-2", "application",
      [("elasticbeanstalk:environment-name", "demo-env")], [], []⟩
     (by decide) (by rfl) rfl,
   resolver_not_found_amended.2.2.2 ⟨true, none, none⟩ "demo-env" "proj" rfl⟩

/-- Witness for C5 at the concrete state. -/
theorem configure_oidc_auth_post_witness :
    ∃ larn lbarn tg l,
      find_listener_arn demoShieldConfig.environment demoState
        = .ok (larn, lbarn) ∧
      find_target_group_arn demoState lbarn = .ok tg ∧
      listenerByArn demoState larn = some l ∧
      ∃ l', listenerByArn demoResult larn = some l' ∧
        l'.defaultActions = fixed503 ∧
        l'.rules = l.rules.filter (fun r => r.isDefault)
          ++ [authRule (resolveOidcConfig demoShieldConfig demoEnv
               (resolveClientSecret none demoEnv "")) tg
               demoState.nextRuleId] ∧
        l'.rules.filter (fun r => ¬ r.isDefault)
          = [authRule (resolveOidcConfig demoShieldConfig demoEnv
              (resolveClientSecret none demoEnv "")) tg
              demoState.nextRuleId] :=
  configure_oidc_auth_post "proj" demoShieldConfig none demoEnv "" demoState
    demoResult (by decide) (by rfl)

/-- Witness for C4 at the concrete state. -/
theorem configure_oidc_auth_idempotent_witness :
    ∃ s2, configure_oidc_auth "proj" demoShieldConfig none demoEnv ""
        demoResult = .ok s2 ∧
      ∃ larn lbarn, find_listener_arn demoShieldConfig.environment demoState
          = .ok (larn, lbarn) ∧
        (listenerByArn s2 larn).map listenerConfigView
          = (listenerByArn demoResult larn).map listenerConfigView :=
  configure_oidc_auth_idempotent "proj" demoShieldConfig none demoEnv ""
    demoState demoResult (by decide) (by rfl)

/-- Witness for C9 at the concrete state (which has no port-80
listener). -/
theorem configure_oidc_auth_http_tolerant_witness :
    ∃ s', configure_oidc_auth "proj" demoShieldConfig none demoEnv ""
        demoState = .ok s' ∧
      s'.environments = demoState.environments ∧
      allListeners s' = (allListeners demoState).map (fun x =>
        if x.arn == "lis-443" then
          { x with defaultActions := fixed503,
                   rules := x.rules.filter (fun r => r.isDefault)
                     ++ [authRule (resolveOidcConfig demoShieldConfig demoEnv
                          (resolveClientSecret none demoEnv "")) "tg-1"
                          demoState.nextRuleId] }
        else x) :=
  configure_oidc_auth_http_tolerant "proj" demoShieldConfig none demoEnv ""
    demoState "lis-443" "lb-1" (replaceStar "proj" "*.example.com") "tg-1"
    (by decide) (by decide) (by rfl) (by decide) (by rfl) (by rfl) (by rfl)

end LazyBeanstalk

